import Mathlib

/-!
Verification development for the resolution-source scraping subsystem of the
Pirohuni-Forecast-Bot repository (package `resolution_scraper`).

The Python source is shallowly embedded: pure helpers become Lean functions,
network I/O is modelled by passing the would-be HTTP response (or a raised
exception) as an explicit argument, Python exceptions become `Except`, floats
become exact rationals, and `time.time()` becomes an explicit clock argument.
Definitions mirror the source modules:
  extraction.py, formatters.py, models.py, config.py,
  adapters/csv_file.py, adapters/json_api.py, adapters/wikipedia.py,
  orchestrator.py.
-/

namespace Scraper

/-! ## String utilities (ASCII modelling of Python `str` operations) -/

/-- ASCII lower-casing of one character, as used by Python `.lower()` on the
ASCII subset that the scraped URLs and column names inhabit. -/
def lowerChar (c : Char) : Char :=
  if 'A' ≤ c ∧ c ≤ 'Z' then Char.ofNat (c.toNat + 32) else c

/-- Python `s.lower()` restricted to ASCII. -/
def toLowerStr (s : String) : String :=
  String.mk (s.data.map lowerChar)

/-- Does the second list occur at the head of the first? -/
def leadsWith : List Char → List Char → Bool
  | [], _ => true
  | _ :: _, [] => false
  | a :: as, b :: bs => a == b && leadsWith as bs

/-- Does `needle` occur as a contiguous sublist of `hay`? -/
def hasSubList (needle : List Char) : List Char → Bool
  | [] => needle.isEmpty
  | c :: rest => leadsWith needle (c :: rest) || hasSubList needle rest

/-- Python `needle in hay` on strings. -/
def strHasSub (hay needle : String) : Bool :=
  hasSubList needle.data hay.data

/-- Python `s.endswith(suffixStr)`. -/
def strEndsWith (s suffixStr : String) : Bool :=
  leadsWith suffixStr.data.reverse s.data.reverse

/-- Index of the first occurrence of `c`, if any. -/
def findCharIdx (cs : List Char) (c : Char) : Option Nat :=
  match cs with
  | [] => Option.none
  | a :: rest =>
    if a == c then Option.some 0
    else (findCharIdx rest c).map (· + 1)

/-- Split a string at the first occurrence of `c`; the delimiter is dropped.
Returns `(s, Option.none)` when `c` does not occur. -/
def splitAtFirst (s : String) (c : Char) : String × Option String :=
  match findCharIdx s.data c with
  | Option.none => (s, Option.none)
  | Option.some i =>
    (String.mk (s.data.take i), Option.some (String.mk (s.data.drop (i + 1))))

/-! ## `urllib.parse.urlparse` model (extraction.py / adapters use it) -/

/-- The components of `urllib.parse.urlparse` that the source reads. -/
structure UrlParts where
  scheme : String
  netloc : String
  path : String
  params : String
  query : String
  fragment : String
deriving Repr, DecidableEq

/-- Is `c` legal inside a URL scheme (per CPython's `scheme_chars`)? -/
def isSchemeChar (c : Char) : Bool :=
  c.isAlpha || c.isDigit || c == '+' || c == '-' || c == '.'

/-- Split off `scheme:` when the prefix before the first colon is a valid
scheme (first char alphabetic, rest scheme chars), as CPython does. -/
def schemeSplit (url : String) : String × String :=
  match findCharIdx url.data ':' with
  | Option.none => ("", url)
  | Option.some i =>
    let pre := url.data.take i
    match pre with
    | [] => ("", url)
    | c :: rest =>
      if c.isAlpha && rest.all isSchemeChar then
        (toLowerStr (String.mk pre), String.mk (url.data.drop (i + 1)))
      else ("", url)

/-- After `//`, the netloc extends to the first of `/`, `?`, `#`. -/
def netlocSplit (rest : String) : String × String :=
  match rest.data with
  | '/' :: '/' :: after =>
    let stop := after.takeWhile (fun c => !(c == '/' || c == '?' || c == '#'))
    (String.mk stop, String.mk (after.drop stop.length))
  | _ => ("", rest)

/-- CPython `_splitparams`: split `;params` off the last path segment. -/
def paramsSplit (path : String) : String × String :=
  let cs := path.data
  let lastSeg := (cs.reverse.takeWhile (fun c => !(c == '/'))).reverse
  match findCharIdx lastSeg ';' with
  | Option.none => (path, "")
  | Option.some j =>
    let i := cs.length - lastSeg.length + j
    (String.mk (cs.take i), String.mk (cs.drop (i + 1)))

/-- Model of `urllib.parse.urlparse`. -/
def urlparse (url : String) : UrlParts :=
  let sc := schemeSplit url
  let nl := netlocSplit sc.2
  let fr := splitAtFirst nl.2 '#'
  let qu := splitAtFirst fr.1 '?'
  let pp := paramsSplit qu.1
  { scheme := sc.1
    netloc := nl.1
    path := pp.1
    params := pp.2
    query := (qu.2).getD ""
    fragment := (fr.2).getD "" }

/-! ## extraction.py: `classify_url` -/

/-- Source translation of `classify_url` (extraction.py). -/
def classify_url (url : String) : String :=
  let parsed := urlparse url
  let host := toLowerStr parsed.netloc
  let path := toLowerStr parsed.path
  if strHasSub host "wikipedia.org" then "wikipedia"
  else if strEndsWith path ".json" || strHasSub path "api" ||
      strHasSub parsed.query "format=json" then "json_api"
  else if strEndsWith path ".csv" then "csv"
  else if strEndsWith path ".xml" then "xml"
  else if strEndsWith path ".pdf" then "pdf"
  else "html"

/-- Modelled from the spec's words for C7: the six-way priority decision as a
pure function of the lowered host, lowered path and raw query. -/
def classifySpecOrder (host path query : String) : String :=
  if strHasSub host "wikipedia.org" then "wikipedia"
  else if strEndsWith path ".json" || strHasSub path "api" ||
      strHasSub query "format=json" then "json_api"
  else if strEndsWith path ".csv" then "csv"
  else if strEndsWith path ".xml" then "xml"
  else if strEndsWith path ".pdf" then "pdf"
  else "html"

/-! ## JSON values and Python numbers

Python floats are modelled as exact rationals; `bool` is kept distinct from
numbers because the JSON walk in json_api.py tests `isinstance(current, bool)`
before `isinstance(current, (int, float))`. -/

/-- A Python number: `int` or `float` (modelled as an exact rational). -/
inductive PyNum where
  | intN (n : Int)
  | realN (q : ℚ)
deriving Repr, DecidableEq

/-- A decoded JSON payload, as produced by `response.json()`. -/
inductive Json where
  | null
  | bool (b : Bool)
  | num (v : PyNum)
  | str (s : String)
  | arr (elems : List Json)
  | obj (fields : List (String × Json))

/-- Association-list lookup for JSON object fields (Python `dict` access;
decoded JSON objects have distinct keys). -/
def Json.lookupField (fields : List (String × Json)) (k : String) : Option Json :=
  match fields with
  | [] => Option.none
  | kv :: rest => if kv.1 == k then Option.some kv.2 else Json.lookupField rest k

/-! ## models.py -/

/-- The value carried by a signal: number, string, or Python `None`. -/
inductive PyVal where
  | num (v : PyNum)
  | str (s : String)
  | pyNone
deriving Repr, DecidableEq

/-- models.py `ResolutionSignal`. Confidence is a plain string at runtime in
the source (a `Literal` annotation), so it is a `String` here too. -/
structure ResolutionSignal where
  url : String
  metric : String
  value : PyVal
  as_of_utc : String
  parser : String
  confidence : String
  note : String
  raw : Option Json

/-- models.py `ScrapeResult`. -/
structure ScrapeResult where
  url : String
  ok : Bool
  signals : List ResolutionSignal
  error : Option String

/-! ## config.py -/

/-- config.py `ScraperConfig` (floats as rationals). -/
structure ScraperConfig where
  request_timeout_s : ℚ
  max_retries : Nat
  retry_backoff_s : ℚ
  user_agent : String
  use_browser_fallback : Bool
  browser_timeout_s : ℚ
  per_run_cache_ttl_s : ℚ
  max_parallel_fetches : Nat

/-- The dataclass defaults of `ScraperConfig`. -/
def defaultConfig : ScraperConfig :=
  { request_timeout_s := 12
    max_retries := 2
    retry_backoff_s := 3 / 4
    user_agent := "Pirohuni-Forecast-Bot/1.0"
    use_browser_fallback := false
    browser_timeout_s := 20
    per_run_cache_ttl_s := 3600
    max_parallel_fetches := 4 }

/-! ## formatters.py -/

/-- formatters.py `_confidence_rank`. -/
def confidence_rank (level : String) : Nat :=
  if level = "high" then 3
  else if level = "medium" then 2
  else 1

/-- Rendering of a signal value inside the snapshot f-string, matching Python
`str()` on ints, strings and `None`; a non-integral float is shown via its
rational representation (float text is outside every claim's scope). -/
def pyValText (v : PyVal) : String :=
  match v with
  | PyVal.num (PyNum.intN n) => toString n
  | PyVal.num (PyNum.realN q) => toString q
  | PyVal.str s => s
  | PyVal.pyNone => "None"

/-- One rendered snapshot line (the f-string in `format_resolution_snapshot`). -/
def render_signal_line (s : ResolutionSignal) : String :=
  "- [" ++ s.confidence ++ "] " ++ s.metric ++ " = " ++ pyValText s.value ++
    " (as_of=" ++ s.as_of_utc ++ ", parser=" ++ s.parser ++ ", url=" ++ s.url ++ ")"

/-- Stable insertion (descending by confidence rank): a later signal is placed
after every already-sorted signal of greater-or-equal rank.  This is the
standard stable realisation of Python `sorted(key=rank, reverse=True)`. -/
def insertByRankDesc (s : ResolutionSignal) : List ResolutionSignal → List ResolutionSignal
  | [] => [s]
  | t :: ts =>
    if confidence_rank s.confidence ≤ confidence_rank t.confidence
    then t :: insertByRankDesc s ts
    else s :: t :: ts

/-- Python `sorted(signals, key=confidence_rank, reverse=True)` (stable). -/
def sortByRankDesc (l : List ResolutionSignal) : List ResolutionSignal :=
  l.foldl (fun acc s => insertByRankDesc s acc) []

/-- The chosen, rendered snapshot lines. -/
def snapshot_lines (signals : List ResolutionSignal) (max_items : Nat) : List String :=
  ((sortByRankDesc signals).take max_items).map render_signal_line

/-- formatters.py `format_resolution_snapshot`. -/
def format_resolution_snapshot (signals : List ResolutionSignal) (max_items : Nat) : String :=
  if signals.isEmpty then "No structured resolution-source signals extracted."
  else String.intercalate "\n" (snapshot_lines signals max_items)

/-- formatters.py `format_scrape_errors`. -/
def format_scrape_errors (results : List ScrapeResult) (max_items : Nat) : String :=
  let failed := results.filter (fun r => !r.ok && (r.error.getD "") != "")
  if failed.isEmpty then ""
  else
    String.intercalate "\n"
      ("Resolution scrape errors:" ::
        (failed.take max_items).map (fun r => "- " ++ r.url ++ ": " ++ (r.error.getD "")))

/-! ## Number parsing (Python `float(...)` on decimal literals)

`float()` is modelled exactly over rationals on sign/digits/point/exponent
literals; the `inf`/`nan`/underscore forms never produced by the scraped
tables are rejected. -/

/-- Value of a digit string. -/
def digitsVal (ds : List Char) : Nat :=
  ds.foldl (fun a c => 10 * a + (c.toNat - 48)) 0

/-- Parse the exponent tail after `e`/`E` into a signed exponent. -/
def parseExpTail (t : List Char) : Option Int :=
  let se := match t with
    | '+' :: r => ((1 : Int), r)
    | '-' :: r => ((-1 : Int), r)
    | r => ((1 : Int), r)
  let ed := se.2.takeWhile Char.isDigit
  if ed.isEmpty || !(se.2.drop ed.length).isEmpty then Option.none
  else Option.some (se.1 * (digitsVal ed : Int))

/-- Python `float(s)` on plain decimal literals, as an exact rational
(`mant · 10^(e - scale)` built with the kernel-reducible `mkRat`). -/
def parseFloatQ (s : String) : Option ℚ :=
  let cs := s.data
  let sc := match cs with
    | '+' :: t => ((1 : Int), t)
    | '-' :: t => ((-1 : Int), t)
    | t => ((1 : Int), t)
  let ip := sc.2.takeWhile Char.isDigit
  let cs2 := sc.2.drop ip.length
  let fc : List Char × List Char := match cs2 with
    | '.' :: t => (t.takeWhile Char.isDigit, t.drop (t.takeWhile Char.isDigit).length)
    | t => ([], t)
  if ip.isEmpty && fc.1.isEmpty then Option.none
  else
    let mant : Int := sc.1 * (digitsVal (ip ++ fc.1) : Int)
    let scale := fc.1.length
    let mkVal : Int → ℚ := fun e =>
      if 0 ≤ e then mkRat (mant * (10 : Int) ^ e.toNat) ((10 : Nat) ^ scale)
      else mkRat mant ((10 : Nat) ^ (scale + (-e).toNat))
    match fc.2 with
    | [] => Option.some (mkVal 0)
    | 'e' :: t => (parseExpTail t).map mkVal
    | 'E' :: t => (parseExpTail t).map mkVal
    | _ => Option.none

/-- Python `s.strip()`. -/
def pyStrip (s : String) : String :=
  String.mk (((s.data.dropWhile Char.isWhitespace).reverse.dropWhile Char.isWhitespace).reverse)

/-- Python `s.replace(",", "")`. -/
def removeCommas (s : String) : String :=
  String.mk (s.data.filter (fun c => !(c == ',')))

/-! ## adapters/csv_file.py -/

/-- csv_file.py `CsvAdapter.numeric_priority`. -/
def numeric_priority : List String := ["count", "total", "value", "articles", "cases"]

/-- csv_file.py `CsvAdapter._parse_number`: strip, drop commas, `float(...)`,
coerce integral values to `int`. -/
def parse_number (text : Option String) : Option PyNum :=
  match text with
  | Option.none => Option.none
  | Option.some t =>
    let cleaned := removeCommas (pyStrip t)
    if cleaned.isEmpty then Option.none
    else
      match parseFloatQ cleaned with
      | Option.none => Option.none
      | Option.some q =>
        Option.some (if q.den = 1 then PyNum.intN q.num else PyNum.realN q)

/-- A parsed CSV row as `csv.DictReader` yields it: header-keyed cells, a
missing cell being Python `None`. -/
abbrev CsvRow := List (String × Option String)

/-- Python `row.get(key)` (absent key and `None` cell both give `None`). -/
def rowGet (row : CsvRow) (k : String) : Option String :=
  match row.find? (fun kv => kv.1 == k) with
  | Option.some kv => kv.2
  | Option.none => Option.none

/-- The `any(p in k.lower() for p in self.numeric_priority)` test. -/
def colMatches (k : String) : Bool :=
  numeric_priority.any (fun p => strHasSub (toLowerStr k) p)

/-- The per-column body of the selection loop: parse the cell of column `k`,
pairing it with the column name. -/
def colPick (row : CsvRow) (k : String) : Option (String × PyNum) :=
  (parse_number (rowGet row k)).map (fun v => (k, v))

/-- csv_file.py `CsvAdapter._select_numeric_column`: columns whose lowered
name contains a priority token come first (in original column order), then
the remaining columns in original order; the first parseable cell wins. -/
def select_numeric_column (row : CsvRow) : Option (String × PyNum) :=
  let keys := row.map Prod.fst
  let matching := keys.filter colMatches
  let ordered := matching ++ keys.filter (fun k => !matching.contains k)
  ordered.findSome? (colPick row)

/-- Modelled from the spec's words for C6: candidate columns are checked in
the listed priority-token order (count, total, value, articles, cases), each
token contributing its matching columns, then the remaining columns in
original order. -/
def select_numeric_column_claim (row : CsvRow) : Option (String × PyNum) :=
  let keys := row.map Prod.fst
  let prioOrdered :=
    ((numeric_priority.map (fun p => keys.filter (fun k => strHasSub (toLowerStr k) p))).flatten).dedup
  let ordered := prioOrdered ++ keys.filter (fun k => !prioOrdered.contains k)
  ordered.findSome? (colPick row)

/-- csv_file.py `CsvAdapter.fetch`, after the HTTP GET succeeded: the parsed
table drives the result.  `now_iso` stands for `utc_now_iso()`. -/
def csvExtract (url now_iso : String) (rows : List CsvRow) : ScrapeResult :=
  match rows.getLast? with
  | Option.none =>
    { url := url, ok := false, signals := [], error := Option.some "CSV has no data rows." }
  | Option.some last_row =>
    match select_numeric_column last_row with
    | Option.none =>
      { url := url, ok := false, signals := [],
        error := Option.some "No numeric column found in final CSV row." }
    | Option.some cv =>
      { url := url, ok := true,
        signals := [{ url := url
                      metric := "csv_" ++ cv.1
                      value := PyVal.num cv.2
                      as_of_utc := now_iso
                      parser := "csv"
                      confidence := "medium"
                      note := "Using last CSV row with heuristic numeric column selection."
                      raw := Option.some (Json.obj
                        [("row_index", Json.num (PyNum.intN ((rows.length : Int) - 1))),
                         ("column", Json.str cv.1)]) }]
        error := Option.none }

/-! ## adapters/json_api.py -/

/-- json_api.py `JsonApiAdapter.priority_keys`. -/
def priority_keys : List String :=
  ["value", "count", "total", "articles", "result", "latest", "data"]

/-- Children of an object node, in visit order: present priority keys first
(in priority-list order), then non-priority keys in original order. -/
def objChildren (path : String) (fields : List (String × Json)) : List (String × Json) :=
  let keys := fields.map Prod.fst
  let ordered := priority_keys.filter (fun k => keys.contains k) ++
      keys.filter (fun k => !priority_keys.contains k)
  ordered.filterMap (fun k => (Json.lookupField fields k).map (fun v => (path ++ "." ++ k, v)))

/-- Children of an array node: only the first 20 elements. -/
def arrChildren (path : String) (elems : List Json) : List (String × Json) :=
  (elems.take 20).enum.map (fun ie => (path ++ "[" ++ toString ie.1 ++ "]", ie.2))

/-- The breadth-first worklist loop of `_extract_numeric_value`; the fuel is
the remaining node budget (`visited < max_nodes` allows exactly 2000 pops). -/
def bfsGo : List (String × Json) → Nat → Option (String × PyNum)
  | [], _ => Option.none
  | _ :: _, 0 => Option.none
  | (path, cur) :: rest, fuel + 1 =>
    match cur with
    | Json.bool _ => bfsGo rest fuel
    | Json.num v => Option.some (path, v)
    | Json.null => bfsGo rest fuel
    | Json.str _ => bfsGo rest fuel
    | Json.obj fields => bfsGo (rest ++ objChildren path fields) fuel
    | Json.arr elems => bfsGo (rest ++ arrChildren path elems) fuel

/-- json_api.py `JsonApiAdapter._extract_numeric_value`. -/
def extract_numeric_value (payload : Json) : Option (String × PyNum) :=
  bfsGo [("$", payload)] 2000

/-- json_api.py `JsonApiAdapter.fetch`, after a JSON-typed response was
decoded: the payload walk drives the result. -/
def jsonExtractResult (url now_iso : String) (payload : Json) : ScrapeResult :=
  match extract_numeric_value payload with
  | Option.none =>
    { url := url, ok := false, signals := [],
      error := Option.some "No numeric value found in JSON payload." }
  | Option.some pv =>
    { url := url, ok := true,
      signals := [{ url := url
                    metric := "json_numeric_value"
                    value := PyVal.num pv.2
                    as_of_utc := now_iso
                    parser := "json_api"
                    confidence := "medium"
                    note := "Heuristic extraction path: " ++ pv.1
                    raw := Option.some (Json.obj [("path", Json.str pv.1)]) }]
      error := Option.none }

/-! ## models.py `ScrapeRequest` and orchestrator.py request building -/

/-- models.py `ScrapeRequest`. -/
structure ScrapeRequest where
  question_id : Int
  question_title : String
  question_type : String
  scheduled_resolve_time : Option String
  url : String
  resolution_text : String

/-- The question-details mapping consumed by the orchestrator (§6 keys).  A
non-integer `id` value is already collapsed to `Option.none`, matching the
`int(...)`-with-fallback in `_question_id`. -/
structure QuestionDetails where
  id : Option Int
  title : String
  qtype : String
  scheduled_resolve_time : Option String
  resolution_criteria : String
  fine_print : String
  description : String

/-- orchestrator.py `ResolutionScraper._question_id`. -/
def question_id_of (d : QuestionDetails) : Int :=
  (d.id).getD (-1)

/-- orchestrator.py `ResolutionScraper._build_request`. -/
def build_request (d : QuestionDetails) (url : String) : ScrapeRequest :=
  { question_id := question_id_of d
    question_title := d.title
    question_type := d.qtype
    scheduled_resolve_time := d.scheduled_resolve_time
    url := url
    resolution_text :=
      String.intercalate "\n" [d.resolution_criteria, d.fine_print, d.description] }

/-! ## Adapter behaviour oracles

`adapter.fetch` performs I/O, so one call is modelled by its observable
outcome: either a returned `ScrapeResult` or a raised exception.  An
`AdapterModel` packages the adapter's name, its pure `can_handle` predicate
and the outcome of its `i`-th fetch call for a given request. -/

/-- The outcome of one `await adapter.fetch(request)` call. -/
inductive AttemptOutcome where
  | ret (result : ScrapeResult)
  | exn (msg : String)

/-- An adapter of the chain, with its per-attempt fetch behaviour. -/
structure AdapterModel where
  name : String
  canHandle : ScrapeRequest → Bool
  attempt : ScrapeRequest → Nat → AttemptOutcome

/-- Did this fetch call return a result with `result.ok` true? -/
def isSuccess (o : AttemptOutcome) : Bool :=
  match o with
  | AttemptOutcome.ret r => r.ok
  | AttemptOutcome.exn _ => false

/-- Python `x or fb` for an optional error string and a string fallback:
keeps `fb` unless the error is a non-empty string. -/
def pyOrError (e : Option String) (fb : String) : String :=
  match e with
  | Option.some s => if s = "" then fb else s
  | Option.none => fb

/-! ## orchestrator.py `_fetch_with_retries` -/

/-- Accumulated observation of the retry loop: the early-returned success (if
any), how many fetch calls were made, the backoff sleeps in order, and the
final `last_error` variable. -/
structure RetryAcc where
  result : Option ScrapeResult
  attemptsMade : Nat
  delays : List ℚ
  lastError : String

/-- The `for attempt in range(total_attempts)` loop of `_fetch_with_retries`:
`idx` is the current attempt index, `remaining` the attempts still allowed
after this one.  On a failed attempt the loop sleeps `backoff · 2^idx` and
continues — unless this was the final attempt (`remaining = 0` after it), in
which case the recursion immediately returns the carried `last_error`. -/
def retryGo (backoff : ℚ) (att : Nat → AttemptOutcome) :
    Nat → String → Nat → RetryAcc
  | _, lastError, 0 =>
    { result := Option.none, attemptsMade := 0, delays := [], lastError := lastError }
  | idx, lastError, remaining + 1 =>
    let failNext : String → RetryAcc := fun le =>
      let rest := retryGo backoff att (idx + 1) le remaining
      { result := rest.result
        attemptsMade := rest.attemptsMade + 1
        delays := (if remaining = 0 then [] else [backoff * 2 ^ idx]) ++ rest.delays
        lastError := rest.lastError }
    match att idx with
    | AttemptOutcome.ret r =>
      if r.ok then
        { result := Option.some r, attemptsMade := 1, delays := [], lastError := lastError }
      else failNext (pyOrError r.error lastError)
    | AttemptOutcome.exn m => failNext m

/-- The observable behaviour of one `_fetch_with_retries(adapter, request)`
call: the returned result plus the attempt count and sleep trace. -/
structure RetryTrace where
  result : ScrapeResult
  attemptsMade : Nat
  delays : List ℚ

/-- orchestrator.py `ResolutionScraper._fetch_with_retries`. -/
def fetchWithRetries (cfg : ScraperConfig) (a : AdapterModel) (req : ScrapeRequest) :
    RetryTrace :=
  let total := max 1 (cfg.max_retries + 1)
  let acc := retryGo cfg.retry_backoff_s (a.attempt req) 0 "Unknown fetch error." total
  match acc.result with
  | Option.some r =>
    { result := r, attemptsMade := acc.attemptsMade, delays := acc.delays }
  | Option.none =>
    { result := { url := req.url, ok := false, signals := []
                  error := Option.some (a.name ++ ": " ++ acc.lastError) }
      attemptsMade := acc.attemptsMade
      delays := acc.delays }

/-! ## orchestrator.py `scrape_url`: the adapter walk -/

/-- Is the retry-loop result of this adapter accepted by the walk
(success AND at least one signal)? -/
def acceptedResult (cfg : ScraperConfig) (a : AdapterModel) (req : ScrapeRequest) : Bool :=
  let r := (fetchWithRetries cfg a req).result
  r.ok && !r.signals.isEmpty

/-- The `for adapter in self.adapters` loop body of `scrape_url`, carrying the
`fallback_error` accumulator. -/
def walkGo (cfg : ScraperConfig) (req : ScrapeRequest) :
    List AdapterModel → String → ScrapeResult
  | [], fb => { url := req.url, ok := false, signals := [], error := Option.some fb }
  | a :: rest, fb =>
    if a.canHandle req then
      let r := (fetchWithRetries cfg a req).result
      if r.ok && !r.signals.isEmpty then r
      else walkGo cfg req rest (pyOrError r.error fb)
    else walkGo cfg req rest fb

/-- The cache-miss body of `scrape_url`: walk the fixed chain. -/
def adapterWalk (cfg : ScraperConfig) (chain : List AdapterModel) (req : ScrapeRequest) :
    ScrapeResult :=
  walkGo cfg req chain "No adapter accepted this URL."

/-- A result error that Python truthiness counts as meaningful. -/
def meaningfulError (r : ScrapeResult) : Option String :=
  match r.error with
  | Option.some s => if s = "" then Option.none else Option.some s
  | Option.none => Option.none

/-- Modelled from the spec's words for C1: restrict to the capable adapters;
accept the first whose retried result is a success carrying a signal; with no
capable adapter fail with the fixed message; with every capable adapter
exhausted fail with the last meaningful error encountered (default the fixed
message). -/
def walkSpecC1 (cfg : ScraperConfig) (chain : List AdapterModel) (req : ScrapeRequest) :
    ScrapeResult :=
  let capable := chain.filter (fun a => a.canHandle req)
  match capable.find? (fun a => acceptedResult cfg a req) with
  | Option.some a => (fetchWithRetries cfg a req).result
  | Option.none =>
    let errs := capable.filterMap (fun a => meaningfulError (fetchWithRetries cfg a req).result)
    { url := req.url, ok := false, signals := []
      error := Option.some (errs.getLast?.getD "No adapter accepted this URL.") }

/-! ## orchestrator.py: TTL cache -/

/-- The `self._cache` dict: URL ↦ (expires_at, result). -/
abbrev Cache := List (String × ℚ × ScrapeResult)

/-- Python `self._cache.get(url)`. -/
def cacheLookup (cache : Cache) (url : String) : Option (ℚ × ScrapeResult) :=
  match cache.find? (fun e => e.1 == url) with
  | Option.some e => Option.some e.2
  | Option.none => Option.none

/-- Python `del self._cache[url]`. -/
def cacheErase (cache : Cache) (url : String) : Cache :=
  cache.filter (fun e => !(e.1 == url))

/-- orchestrator.py `_get_cached`, with `time.time()` passed as `now`:
returns the fresh hit (if any) and the possibly-evicted cache. -/
def get_cached (now : ℚ) (cache : Cache) (url : String) :
    Option ScrapeResult × Cache :=
  match cacheLookup cache url with
  | Option.none => (Option.none, cache)
  | Option.some er =>
    if er.1 ≤ now then (Option.none, cacheErase cache url)
    else (Option.some er.2, cache)

/-- orchestrator.py `_set_cached`. -/
def set_cached (cfg : ScraperConfig) (now : ℚ) (cache : Cache) (url : String)
    (result : ScrapeResult) : Cache :=
  (url, now + cfg.per_run_cache_ttl_s, result) :: cacheErase cache url

/-! ## orchestrator.py `scrape_url` and `scrape_question_sources` -/

/-- Observable outcome of one `scrape_url` call: the result, the cache
afterwards, and whether the cache-miss (fetch) path ran. -/
structure UrlStep where
  result : ScrapeResult
  cache : Cache
  fetched : Bool

/-- orchestrator.py `scrape_url`, with the clock explicit. -/
def scrapeUrl (cfg : ScraperConfig) (chain : List AdapterModel) (now : ℚ)
    (cache : Cache) (req : ScrapeRequest) : UrlStep :=
  let gc := get_cached now cache req.url
  match gc.1 with
  | Option.some r => { result := r, cache := gc.2, fetched := false }
  | Option.none =>
    let r := adapterWalk cfg chain req
    { result := r, cache := set_cached cfg now gc.2 req.url r, fetched := true }

/-- The per-question batch: one `scrape_url` per request.  Results are
collected in request order (`asyncio.gather` preserves argument order); each
task only touches its own URL's cache key, so the sequential threading below
observes the same per-result outcomes as any interleaving. -/
def scrapeBatch (cfg : ScraperConfig) (chain : List AdapterModel) (now : ℚ) :
    Cache → List ScrapeRequest → List ScrapeResult × Cache
  | cache, [] => ([], cache)
  | cache, req :: rest =>
    let st := scrapeUrl cfg chain now cache req
    let tail := scrapeBatch cfg chain now st.cache rest
    (st.result :: tail.1, tail.2)

/-- orchestrator.py `scrape_question_sources`; `urls` is the output of the
pure `extract_resolution_urls` on the question's text fields. -/
def scrape_question_sources (cfg : ScraperConfig) (chain : List AdapterModel)
    (now : ℚ) (cache : Cache) (d : QuestionDetails) (urls : List String) :
    List ScrapeResult × Cache :=
  scrapeBatch cfg chain now cache (urls.map (build_request d))

/-- orchestrator.py `flatten_signals`. -/
def flatten_signals (results : List ScrapeResult) : List ResolutionSignal :=
  (results.map (fun r => r.signals)).flatten

/-! ## adapters/wikipedia.py

`fetch` is embedded with its exception behaviour made explicit: the value of
`client.get(...)` arrives as `net : Except String HttpResponse` (a network
error is an already-raised exception), and the body runs in `Except String`,
where `Except.error` is an exception propagating out of `fetch`. -/

/-- The slice of an `httpx.Response` the adapters read. -/
structure HttpResponse where
  status : Nat
  content_type : String
  jsonBody : Option Json
  textBody : String

/-- Model of `response.raise_for_status()`: raises unless the status is 2xx. -/
def raiseForStatus (resp : HttpResponse) : Except String Unit :=
  if 200 ≤ resp.status ∧ resp.status < 300 then Except.ok ()
  else Except.error ("HTTP status error " ++ toString resp.status)

/-- Model of `response.json()`: raises when the body does not decode. -/
def respJson (resp : HttpResponse) : Except String Json :=
  match resp.jsonBody with
  | Option.some j => Except.ok j
  | Option.none => Except.error "JSON decode error"

/-- Python `obj.get(k, dflt)`: raises `AttributeError` on a non-dict. -/
def pyDictGet (j : Json) (k : String) (dflt : Json) : Except String Json :=
  match j with
  | Json.obj fields => Except.ok ((Json.lookupField fields k).getD dflt)
  | _ => Except.error "AttributeError: get"

/-- Python `obj.get(k)` with the default `None`. -/
def pyDictGetOpt (j : Json) (k : String) : Except String (Option Json) :=
  match j with
  | Json.obj fields => Except.ok (Json.lookupField fields k)
  | _ => Except.error "AttributeError: get"

/-- Integer part of a rational, rounded toward zero (Python `int(float)`). -/
def ratTruncToward0 (q : ℚ) : Int :=
  if 0 ≤ q then q.floor else -(Rat.floor (-q))

/-- Python `int(s)` on a string: optional sign and digits after stripping. -/
def parseIntStr (s : String) : Option Int :=
  let cs := (pyStrip s).data
  let sd : Int × List Char :=
    match cs with
    | '+' :: t => (1, t)
    | '-' :: t => (-1, t)
    | t => (1, t)
  if sd.2.isEmpty || !(sd.2.all Char.isDigit) then Option.none
  else Option.some (sd.1 * (digitsVal sd.2 : Int))

/-- Python `int(x)` on a decoded JSON value; raises on inconvertible values. -/
def pyToInt (j : Json) : Except String Int :=
  match j with
  | Json.num (PyNum.intN n) => Except.ok n
  | Json.num (PyNum.realN q) => Except.ok (ratTruncToward0 q)
  | Json.bool b => Except.ok (if b then 1 else 0)
  | Json.str s =>
    match parseIntStr s with
    | Option.some n => Except.ok n
    | Option.none => Except.error "ValueError: int()"
  | _ => Except.error "TypeError: int()"

/-- Index of the first occurrence of `needle` inside `hay`. -/
def subIdx (needle : List Char) : List Char → Option Nat
  | [] => if needle.isEmpty then Option.some 0 else Option.none
  | c :: rest =>
    if leadsWith needle (c :: rest) then Option.some 0
    else (subIdx needle rest).map (· + 1)

/-- wikipedia.py language derivation:
`host.split(".wikipedia.org")[0].split(".")[-1] or "en"`. -/
def wikiLang (host : String) : String :=
  let pre : List Char :=
    match subIdx ".wikipedia.org".data host.data with
    | Option.some i => host.data.take i
    | Option.none => host.data
  let lastSeg := (pre.reverse.takeWhile (fun c => !(c == '.'))).reverse
  if lastSeg.isEmpty then "en" else String.mk lastSeg

/-- wikipedia.py `WikipediaAdapter.can_handle`. -/
def wikipediaCanHandle (req : ScrapeRequest) : Bool :=
  strHasSub (toLowerStr (urlparse req.url).netloc) "wikipedia.org"

/-- wikipedia.py `WikipediaAdapter.fetch`.  `net` is the observable outcome
of the `client.get` call against the derived siteinfo endpoint, `now_iso`
stands for `utc_now_iso()`. -/
def wikipediaFetch (req : ScrapeRequest) (net : Except String HttpResponse)
    (now_iso : String) : Except String ScrapeResult := do
  let host := toLowerStr (urlparse req.url).netloc
  if !(strHasSub host ".wikipedia.org") then
    return { url := req.url, ok := false, signals := []
             error := Option.some "Unsupported Wikipedia host format." }
  let lang := wikiLang host
  let resp ← net
  let _ ← raiseForStatus resp
  let payload ← respJson resp
  let qv ← pyDictGet payload "query" (Json.obj [])
  let stats ← pyDictGet qv "statistics" (Json.obj [])
  let articles? ← pyDictGetOpt stats "articles"
  match articles? with
  | Option.none =>
    return { url := req.url, ok := false, signals := []
             error := Option.some "Could not find article statistics in MediaWiki response." }
  | Option.some articles =>
    let n ← pyToInt articles
    let lowered := toLowerStr req.resolution_text
    let conf :=
      if strHasSub lowered "article" && strHasSub lowered "wikipedia" then "high"
      else "medium"
    return { url := req.url, ok := true
             signals := [{ url := req.url
                           metric := "wikipedia_article_count_" ++ lang
                           value := PyVal.num (PyNum.intN n)
                           as_of_utc := now_iso
                           parser := "wikipedia_api"
                           confidence := conf
                           note := "Retrieved from MediaWiki siteinfo.statistics."
                           raw := Option.some (Json.obj
                             [("lang", Json.str lang), ("statistics", stats)]) }]
             error := Option.none }

/-! ## Concurrency gate (orchestrator.py `asyncio.Semaphore`)

`scrape_url` enters `async with self._semaphore` only on a cache miss.  The
admission discipline is modelled as a transition system over the per-URL
tasks of one orchestrator instance: a cache-miss task must acquire a slot
(`avail > 0`) before running its fetch and releases it when done; a cache-hit
task completes without touching the semaphore. -/

/-- Whether a task's URL hits or misses the cache. -/
inductive TaskKind where
  | miss
  | hit
deriving Repr, DecidableEq

/-- Lifecycle of one per-URL task. -/
inductive TaskPhase where
  | pending
  | running
  | done
deriving Repr, DecidableEq

/-- Semaphore counter plus each task's phase. -/
structure GateState where
  avail : Nat
  phases : List TaskPhase
deriving Repr, DecidableEq

/-- Number of concurrently running fetches. -/
def countRunning (ps : List TaskPhase) : Nat :=
  ps.countP (fun p => p == TaskPhase.running)

/-- Interleaved execution steps of the per-URL tasks. -/
inductive GateStep (kinds : List TaskKind) : GateState → GateState → Prop where
  | start {s : GateState} (i : Nat)
      (hk : kinds.get? i = Option.some TaskKind.miss)
      (hp : s.phases.get? i = Option.some TaskPhase.pending)
      (hav : 0 < s.avail) :
      GateStep kinds s { avail := s.avail - 1, phases := s.phases.set i TaskPhase.running }
  | finish {s : GateState} (i : Nat)
      (hp : s.phases.get? i = Option.some TaskPhase.running) :
      GateStep kinds s { avail := s.avail + 1, phases := s.phases.set i TaskPhase.done }
  | hitDone {s : GateState} (i : Nat)
      (hk : kinds.get? i = Option.some TaskKind.hit)
      (hp : s.phases.get? i = Option.some TaskPhase.pending) :
      GateStep kinds s { avail := s.avail, phases := s.phases.set i TaskPhase.done }

/-- Initial state: semaphore at `max_parallel_fetches`, every task pending. -/
def initGate (k n : Nat) : GateState :=
  { avail := k, phases := List.replicate n TaskPhase.pending }

/-- States reachable by interleaving task steps from the initial state. -/
def GateReachable (kinds : List TaskKind) (k n : Nat) (s : GateState) : Prop :=
  Relation.ReflTransGen (GateStep kinds) (initGate k n) s

/-! ## Theorems -/

/-- A path ending in ".csv" cannot also end in ".json" (their last characters
differ). -/
lemma strEndsWith_csv_excl_json (p : String) (h : strEndsWith p ".csv" = true) :
    strEndsWith p ".json" = false := by
  have hc : ".csv".data.reverse = ['v', 's', 'c', '.'] := rfl
  have hj : ".json".data.reverse = ['n', 'o', 's', 'j', '.'] := rfl
  unfold strEndsWith at h ⊢
  rw [hc] at h
  rw [hj]
  cases hrev : p.data.reverse with
  | nil => rw [hrev] at h; simp [leadsWith] at h
  | cons c t =>
    rw [hrev] at h
    simp only [leadsWith, Bool.and_eq_true, beq_iff_eq] at h
    rcases h with ⟨hcv, _⟩
    subst hcv
    simp [leadsWith]

/-- C7 counterexample: the claim says any URL whose path ends ".csv"
classifies "csv" regardless of host, but a wikipedia.org host wins by
priority: this URL classifies "wikipedia", not "csv". -/
theorem claim_C7_counterexample :
    classify_url "https://en.wikipedia.org/data.csv" = "wikipedia" ∧
    classify_url "https://en.wikipedia.org/data.csv" ≠ "csv" := by
  refine ⟨by decide, by decide⟩

/-- C7 (amended): `classify_url` is a pure function of the parsed URL,
evaluated in the priority order wikipedia, json_api, csv, xml, pdf, html over
the stated conditions; and a URL whose path ends ".csv" classifies "csv"
provided no earlier rule fires (host not containing "wikipedia.org", path not
containing "api", query not containing "format=json"); a ".csv" path ending
alone already rules out the ".json" ending. -/
theorem claim_C7_amended :
    (∀ url, classify_url url =
      classifySpecOrder (toLowerStr (urlparse url).netloc)
        (toLowerStr (urlparse url).path) (urlparse url).query) ∧
    (∀ url,
      strEndsWith (toLowerStr (urlparse url).path) ".csv" = true →
      strHasSub (toLowerStr (urlparse url).netloc) "wikipedia.org" = false →
      strHasSub (toLowerStr (urlparse url).path) "api" = false →
      strHasSub (urlparse url).query "format=json" = false →
      classify_url url = "csv") := by
  constructor
  · intro url
    rfl
  · intro url hcsv hwiki hapi hfmt
    simp [classify_url, hwiki, hapi, hfmt, hcsv, strEndsWith_csv_excl_json _ hcsv]

/-- C7 witness: the amended csv rule applied at a concrete URL. -/
theorem claim_C7_witness :
    classify_url "https://data.example.org/stats.csv" = "csv" :=
  claim_C7_amended.2 "https://data.example.org/stats.csv"
    (by decide) (by decide) (by decide) (by decide)

/-! ### C9: formatter lemmas -/

/-- The signals of one confidence rank, in original order. -/
def rankFilter (k : Nat) (l : List ResolutionSignal) : List ResolutionSignal :=
  l.filter (fun s => confidence_rank s.confidence == k)

lemma confidence_rank_cases (c : String) :
    confidence_rank c = 3 ∨ confidence_rank c = 2 ∨ confidence_rank c = 1 := by
  unfold confidence_rank
  split
  · exact Or.inl rfl
  · split
    · exact Or.inr (Or.inl rfl)
    · exact Or.inr (Or.inr rfl)

lemma insertByRankDesc_skip (s : ResolutionSignal) (xs ys : List ResolutionSignal)
    (h : ∀ x ∈ xs, confidence_rank s.confidence ≤ confidence_rank x.confidence) :
    insertByRankDesc s (xs ++ ys) = xs ++ insertByRankDesc s ys := by
  induction xs with
  | nil => rfl
  | cons x t ih =>
    have hx : confidence_rank s.confidence ≤ confidence_rank x.confidence :=
      h x (List.mem_cons_self x t)
    simp only [List.cons_append, insertByRankDesc, if_pos hx, List.append_eq]
    rw [ih (fun y hy => h y (List.mem_cons_of_mem x hy))]

lemma insertByRankDesc_here (s : ResolutionSignal) (ys : List ResolutionSignal)
    (h : ∀ y ∈ ys, confidence_rank y.confidence < confidence_rank s.confidence) :
    insertByRankDesc s ys = s :: ys := by
  cases ys with
  | nil => rfl
  | cons y t =>
    have hy := h y (List.mem_cons_self y t)
    simp only [insertByRankDesc]
    rw [if_neg (by omega)]

lemma rankFilter_cons_pos (k : Nat) (s : ResolutionSignal) (t : List ResolutionSignal)
    (h : confidence_rank s.confidence = k) :
    rankFilter k (s :: t) = s :: rankFilter k t := by
  simp [rankFilter, List.filter_cons, h]

lemma rankFilter_cons_neg (k : Nat) (s : ResolutionSignal) (t : List ResolutionSignal)
    (h : confidence_rank s.confidence ≠ k) :
    rankFilter k (s :: t) = rankFilter k t := by
  simp [rankFilter, List.filter_cons, h]

lemma foldl_insert_partition (l : List ResolutionSignal) :
    ∀ A B C : List ResolutionSignal,
      (∀ x ∈ A, confidence_rank x.confidence = 3) →
      (∀ x ∈ B, confidence_rank x.confidence = 2) →
      (∀ x ∈ C, confidence_rank x.confidence = 1) →
      l.foldl (fun acc s => insertByRankDesc s acc) (A ++ B ++ C) =
        (A ++ rankFilter 3 l) ++ (B ++ rankFilter 2 l) ++ (C ++ rankFilter 1 l) := by
  induction l with
  | nil => intro A B C _ _ _; simp [rankFilter]
  | cons s t ih =>
    intro A B C hA hB hC
    simp only [List.foldl_cons]
    rcases confidence_rank_cases s.confidence with hr | hr | hr
    · have hins : insertByRankDesc s (A ++ B ++ C) = (A ++ [s]) ++ B ++ C := by
        rw [List.append_assoc A B C]
        rw [insertByRankDesc_skip s A (B ++ C) (fun x hx => by rw [hA x hx, hr])]
        rw [insertByRankDesc_here s (B ++ C) (fun y hy => by
          rcases List.mem_append.mp hy with hyB | hyC
          · rw [hB y hyB, hr]; omega
          · rw [hC y hyC, hr]; omega)]
        simp
      rw [hins]
      rw [ih (A ++ [s]) B C (fun x hx => by
            rcases List.mem_append.mp hx with hxA | hxs
            · exact hA x hxA
            · rw [List.mem_singleton.mp hxs]; exact hr)
          hB hC]
      rw [rankFilter_cons_pos 3 s t hr, rankFilter_cons_neg 2 s t (by omega),
        rankFilter_cons_neg 1 s t (by omega)]
      simp
    · have hins : insertByRankDesc s (A ++ B ++ C) = A ++ (B ++ [s]) ++ C := by
        rw [insertByRankDesc_skip s (A ++ B) C (fun x hx => by
          rcases List.mem_append.mp hx with hxA | hxB
          · rw [hA x hxA, hr]; omega
          · rw [hB x hxB, hr])]
        rw [insertByRankDesc_here s C (fun y hy => by rw [hC y hy, hr]; omega)]
        simp
      rw [hins]
      rw [ih A (B ++ [s]) C hA (fun x hx => by
            rcases List.mem_append.mp hx with hxB | hxs
            · exact hB x hxB
            · rw [List.mem_singleton.mp hxs]; exact hr)
          hC]
      rw [rankFilter_cons_neg 3 s t (by omega), rankFilter_cons_pos 2 s t hr,
        rankFilter_cons_neg 1 s t (by omega)]
      simp
    · have hins : insertByRankDesc s (A ++ B ++ C) = A ++ B ++ (C ++ [s]) := by
        conv_lhs => rw [← List.append_nil (A ++ B ++ C)]
        rw [List.append_assoc (A ++ B) C []]
        rw [insertByRankDesc_skip s (A ++ B) (C ++ []) (fun x hx => by
          rcases List.mem_append.mp hx with hxA | hxB
          · rw [hA x hxA, hr]; omega
          · rw [hB x hxB, hr]; omega)]
        rw [insertByRankDesc_skip s C [] (fun x hx => by rw [hC x hx, hr])]
        simp [insertByRankDesc]
      rw [hins]
      rw [ih A B (C ++ [s]) hA hB (fun x hx => by
            rcases List.mem_append.mp hx with hxC | hxs
            · exact hC x hxC
            · rw [List.mem_singleton.mp hxs]; exact hr)]
      rw [rankFilter_cons_neg 3 s t (by omega), rankFilter_cons_neg 2 s t (by omega),
        rankFilter_cons_pos 1 s t hr]
      simp

/-- Python's stable `sorted(..., key=confidence_rank, reverse=True)` is the
concatenation of the three confidence classes, each in original order. -/
lemma sortByRankDesc_partition (l : List ResolutionSignal) :
    sortByRankDesc l = rankFilter 3 l ++ rankFilter 2 l ++ rankFilter 1 l := by
  have h := foldl_insert_partition l [] [] []
    (by intro x hx; cases hx) (by intro x hx; cases hx) (by intro x hx; cases hx)
  simpa [sortByRankDesc] using h

lemma insertByRankDesc_length (s : ResolutionSignal) (ys : List ResolutionSignal) :
    (insertByRankDesc s ys).length = ys.length + 1 := by
  induction ys with
  | nil => rfl
  | cons y t ih =>
    simp only [insertByRankDesc]
    split
    · simp [ih]
    · simp

lemma sortByRankDesc_length (l : List ResolutionSignal) :
    (sortByRankDesc l).length = l.length := by
  suffices h : ∀ acc, (l.foldl (fun acc s => insertByRankDesc s acc) acc).length
      = acc.length + l.length by
    simpa [sortByRankDesc] using h []
  induction l with
  | nil => intro acc; simp
  | cons s t ih =>
    intro acc
    simp only [List.foldl_cons]
    rw [ih (insertByRankDesc s acc), insertByRankDesc_length]
    simp only [List.length_cons]
    omega

lemma mem_rankFilter_rank {k : Nat} {x : ResolutionSignal} {l : List ResolutionSignal}
    (h : x ∈ rankFilter k l) : confidence_rank x.confidence = k := by
  have := (List.mem_filter.mp h).2
  exact eq_of_beq this

lemma pairwise_rankFilter (k : Nat) (l : List ResolutionSignal) :
    List.Pairwise (fun a b => confidence_rank b.confidence ≤ confidence_rank a.confidence)
      (rankFilter k l) := by
  have : ∀ a ∈ rankFilter k l, ∀ b ∈ rankFilter k l,
      confidence_rank b.confidence ≤ confidence_rank a.confidence := by
    intro a ha b hb
    rw [mem_rankFilter_rank ha, mem_rankFilter_rank hb]
  exact List.pairwise_of_forall_mem_list this

/-- The sorted signal list is weakly decreasing in confidence rank. -/
lemma sortByRankDesc_pairwise (l : List ResolutionSignal) :
    List.Pairwise (fun a b => confidence_rank b.confidence ≤ confidence_rank a.confidence)
      (sortByRankDesc l) := by
  rw [sortByRankDesc_partition]
  rw [List.pairwise_append]
  refine ⟨?_, ?_, ?_⟩
  · rw [List.pairwise_append]
    refine ⟨pairwise_rankFilter 3 l, pairwise_rankFilter 2 l, ?_⟩
    intro a ha b hb
    rw [mem_rankFilter_rank ha, mem_rankFilter_rank hb]
    omega
  · exact pairwise_rankFilter 1 l
  · intro a ha b hb
    rcases List.mem_append.mp ha with h3 | h2
    · rw [mem_rankFilter_rank h3, mem_rankFilter_rank hb]; omega
    · rw [mem_rankFilter_rank h2, mem_rankFilter_rank hb]; omega

/-- C9: `format_resolution_snapshot` on the empty list is the fixed sentinel;
on any list it renders one line per chosen signal, the chosen signals being
the first `max_items` of the stable descending sort (equivalently: the high
signals in original order, then medium, then low); the number of rendered
lines is `min max_items (length signals)`; and the sorted order is weakly
decreasing high→medium→low. -/
theorem claim_C9_formatter :
    (∀ m, format_resolution_snapshot [] m =
      "No structured resolution-source signals extracted.") ∧
    (∀ l m, format_resolution_snapshot l m =
      if l.isEmpty then "No structured resolution-source signals extracted."
      else String.intercalate "\n"
        (((rankFilter 3 l ++ rankFilter 2 l ++ rankFilter 1 l).take m).map
          render_signal_line)) ∧
    (∀ l m, (snapshot_lines l m).length = min m l.length) ∧
    (∀ l, List.Pairwise
      (fun a b => confidence_rank b.confidence ≤ confidence_rank a.confidence)
      (sortByRankDesc l)) := by
  refine ⟨?_, ?_, ?_, ?_⟩
  · intro m; rfl
  · intro l m
    rw [format_resolution_snapshot, snapshot_lines, sortByRankDesc_partition]
  · intro l m
    rw [snapshot_lines, List.length_map, List.length_take, sortByRankDesc_length]
  · exact sortByRankDesc_pairwise

/-! ### C6: CSV adapter lemmas -/

lemma findSome?_colPick_mem (row : CsvRow) :
    ∀ (ks : List String) (k : String) (v : PyNum),
      ks.findSome? (colPick row) = Option.some (k, v) →
      k ∈ ks ∧ parse_number (rowGet row k) = Option.some v := by
  intro ks
  induction ks with
  | nil => intro k v h; simp [List.findSome?] at h
  | cons a t ih =>
    intro k v h
    rw [List.findSome?_cons] at h
    cases ha : colPick row a with
    | some b =>
      rw [ha] at h
      cases hp : parse_number (rowGet row a) with
      | none => simp [colPick, hp] at ha
      | some w =>
        simp [colPick, hp] at ha
        rw [← ha] at h
        have hk : a = k ∧ w = v := by
          have := Option.some.inj h
          exact ⟨congrArg Prod.fst this, congrArg Prod.snd this⟩
        refine ⟨?_, ?_⟩
        · rw [← hk.1]; exact List.mem_cons_self a t
        · rw [← hk.1, hp, hk.2]
    | none =>
      rw [ha] at h
      rcases ih k v h with ⟨hm, hp⟩
      exact ⟨List.mem_cons_of_mem a hm, hp⟩

lemma findSome?_isSome_of_mem (row : CsvRow) (ks : List String) (k : String)
    (hk : k ∈ ks) (hp : (parse_number (rowGet row k)).isSome = true) :
    (ks.findSome? (colPick row)).isSome = true := by
  induction ks with
  | nil => cases hk
  | cons a t ih =>
    rw [List.findSome?_cons]
    cases ha : colPick row a with
    | some b => simp
    | none =>
      rcases List.mem_cons.mp hk with rfl | hmem
      · exfalso
        cases hq : parse_number (rowGet row k) with
        | none => rw [hq] at hp; simp at hp
        | some w => simp [colPick, hq] at ha
      · exact ih hmem

lemma findSome?_append_left {α β : Type} (f : α → Option β) :
    ∀ (l1 l2 : List α) (b : β), l1.findSome? f = Option.some b →
      (l1 ++ l2).findSome? f = Option.some b := by
  intro l1
  induction l1 with
  | nil => intro l2 b h; simp [List.findSome?] at h
  | cons a t ih =>
    intro l2 b h
    rw [List.cons_append, List.findSome?_cons]
    rw [List.findSome?_cons] at h
    cases ha : f a with
    | some c => rw [ha] at h; rw [h]
    | none => rw [ha] at h; exact ih l2 b h

/-- C6 counterexample: the claim checks candidate columns in the listed
priority order (count before total), but the code checks the matching columns
in original column order: on a last row with both a "total" and a "count"
column the code selects "total" where the claim's rule selects "count". -/
theorem claim_C6_counterexample :
    select_numeric_column [("total", Option.some "5"), ("count", Option.some "7")] =
      Option.some ("total", PyNum.intN 5) ∧
    select_numeric_column_claim [("total", Option.some "5"), ("count", Option.some "7")] =
      Option.some ("count", PyNum.intN 7) ∧
    (csvExtract "u" "t" [[("total", Option.some "5"), ("count", Option.some "7")]]).signals.map
      (fun s => s.metric) = ["csv_total"] := by
  refine ⟨by decide, by decide, by decide⟩

/-- The spec's own three-row example: only the final row's "total" cell
parses. -/
def csvRows3 : List CsvRow :=
  [[("date", Option.some "d1"), ("total", Option.some "n/a")],
   [("date", Option.some "d2"), ("total", Option.some "")],
   [("date", Option.some "d3"), ("total", Option.some "12,345")]]

/-- C6 (amended): the CSV adapter inspects only the last data row (the result
depends only on that row and the row count), the candidate columns being the
priority-matching columns in original column order — not in the priority
list's own order — followed by the remaining columns in original order; cells
parse with commas stripped and integral floats coerced to int; the metric is
"csv_" plus the selected column; an empty table or an unparseable last row is
a failure. -/
theorem claim_C6_amended :
    (∀ url ts, csvExtract url ts [] =
      { url := url, ok := false, signals := []
        error := Option.some "CSV has no data rows." }) ∧
    (∀ url ts (init1 init2 : List CsvRow) (last : CsvRow),
      init1.length = init2.length →
      csvExtract url ts (init1 ++ [last]) = csvExtract url ts (init2 ++ [last])) ∧
    (∀ url ts rows last, rows.getLast? = Option.some last →
      (select_numeric_column last = Option.none →
        csvExtract url ts rows =
          { url := url, ok := false, signals := []
            error := Option.some "No numeric column found in final CSV row." }) ∧
      (∀ k v, select_numeric_column last = Option.some (k, v) →
        (csvExtract url ts rows).ok = true ∧
        (csvExtract url ts rows).signals.map (fun s => s.metric) = ["csv_" ++ k] ∧
        (csvExtract url ts rows).signals.map (fun s => s.value) = [PyVal.num v])) ∧
    (∀ row k v, select_numeric_column row = Option.some (k, v) →
      parse_number (rowGet row k) = Option.some v ∧
      k ∈ row.map Prod.fst ∧
      ((∃ p ∈ row.map Prod.fst, colMatches p = true ∧
          (parse_number (rowGet row p)).isSome = true) →
        colMatches k = true)) ∧
    (parse_number (Option.some "1,234") = Option.some (PyNum.intN 1234) ∧
     parse_number (Option.some "2.0") = Option.some (PyNum.intN 2) ∧
     parse_number (Option.some " 2.5 ") = Option.some (PyNum.realN (mkRat 5 2)) ∧
     parse_number (Option.some "n/a") = Option.none) ∧
    (∀ url ts, csvExtract url ts csvRows3 =
      { url := url, ok := true
        signals := [{ url := url
                      metric := "csv_total"
                      value := PyVal.num (PyNum.intN 12345)
                      as_of_utc := ts
                      parser := "csv"
                      confidence := "medium"
                      note := "Using last CSV row with heuristic numeric column selection."
                      raw := Option.some (Json.obj
                        [("row_index", Json.num (PyNum.intN 2)),
                         ("column", Json.str "total")]) }]
        error := Option.none }) := by
  refine ⟨?_, ?_, ?_, ?_, ?_, ?_⟩
  · intro url ts; rfl
  · intro url ts init1 init2 last hlen
    unfold csvExtract
    rw [List.getLast?_concat, List.getLast?_concat]
    have h1 : (init1 ++ [last]).length = (init2 ++ [last]).length := by
      simp [hlen]
    rw [h1]
  · intro url ts rows last hlast
    constructor
    · intro hnone
      simp only [csvExtract, hlast, hnone]
    · intro k v hsome
      simp [csvExtract, hlast, hsome]
  · intro row k v h
    simp only [select_numeric_column] at h
    have hmem := findSome?_colPick_mem row _ k v h
    rcases hmem with ⟨hin, hp⟩
    refine ⟨hp, ?_, ?_⟩
    · rcases List.mem_append.mp hin with hm | hm
      · exact List.mem_of_mem_filter hm
      · exact List.mem_of_mem_filter hm
    · rintro ⟨p, hpmem, hpmatch, hppars⟩
      have hpfilter : p ∈ (row.map Prod.fst).filter colMatches :=
        List.mem_filter.mpr ⟨hpmem, hpmatch⟩
      have hsome1 := findSome?_isSome_of_mem row _ p hpfilter hppars
      cases hb : ((row.map Prod.fst).filter colMatches).findSome? (colPick row) with
      | none => rw [hb] at hsome1; simp at hsome1
      | some b =>
        have hall := findSome?_append_left (colPick row) _
          ((row.map Prod.fst).filter (fun k => !((row.map Prod.fst).filter colMatches).contains k))
          b hb
        have : Option.some b = Option.some (k, v) := by
          rw [← hall]
          exact h
        have hbkv : b = (k, v) := Option.some.inj this
        rw [hbkv] at hb
        have := findSome?_colPick_mem row _ k v hb
        exact (List.mem_filter.mp this.1).2
  · refine ⟨by decide, by decide, by decide, by decide⟩
  · intro url ts; rfl

/-- C6 witness: the amended last-row/metric facts applied at the spec's
three-row table. -/
theorem claim_C6_witness :
    (csvExtract "u" "t" csvRows3).ok = true ∧
    (csvExtract "u" "t" csvRows3).signals.map (fun s => s.metric) = ["csv_total"] := by
  have h := (claim_C6_amended.2.2.1 "u" "t" csvRows3
    [("date", Option.some "d3"), ("total", Option.some "12,345")] (by decide)).2
    "total" (PyNum.intN 12345) (by decide)
  exact ⟨h.1, h.2.1⟩

/-! ### C8: JSON walk lemmas -/

/-- A chain of `n` nested single-key objects with a numeric leaf at the
bottom: the leaf sits `n` nodes below the root. -/
def deepChain : Nat → Json
  | 0 => Json.num (PyNum.intN 7)
  | n + 1 => Json.obj [("a", deepChain n)]

lemma bfsGo_deepChain (fuel : Nat) :
    ∀ (n : Nat) (p : String), fuel ≤ n → bfsGo [(p, deepChain n)] fuel = Option.none := by
  induction fuel with
  | zero =>
    intro n p _
    rfl
  | succ f ih =>
    intro n p hle
    cases n with
    | zero => omega
    | succ m =>
      have hstep : bfsGo [(p, deepChain (m + 1))] (f + 1) =
          bfsGo [(p ++ "." ++ "a", deepChain m)] f := by
        simp [deepChain, bfsGo, objChildren, priority_keys, Json.lookupField]
      rw [hstep]
      exact ih m (p ++ "." ++ "a") (by omega)

/-- C8: the payload walk is breadth-first with a 2000-node budget: a boolean
node is skipped, an object enqueues its present priority keys before its
remaining keys, an array enqueues only its first 20 elements; the first
numeric leaf in visit order is returned with its path (so `total` beats
`other`, and a breadth-1 leaf beats a nested one); a numeric leaf buried
2000 object levels deep — or behind the 20-element array cap — is never
reached, and the adapter then reports the fixed no-numeric-value failure. -/
theorem claim_C8_json_walk :
    (extract_numeric_value (Json.obj [("other", Json.num (PyNum.intN 5)),
        ("total", Json.num (PyNum.intN 9))]) =
      Option.some ("$.total", PyNum.intN 9)) ∧
    (∀ p b rest fuel, bfsGo ((p, Json.bool b) :: rest) (fuel + 1) = bfsGo rest fuel) ∧
    (∀ p fields rest fuel, bfsGo ((p, Json.obj fields) :: rest) (fuel + 1) =
      bfsGo (rest ++ objChildren p fields) fuel) ∧
    (∀ p elems rest fuel, bfsGo ((p, Json.arr elems) :: rest) (fuel + 1) =
      bfsGo (rest ++ arrChildren p elems) fuel) ∧
    (∀ p elems, arrChildren p elems =
      (elems.take 20).enum.map (fun ie => (p ++ "[" ++ toString ie.1 ++ "]", ie.2))) ∧
    (extract_numeric_value (Json.arr (List.replicate 20 Json.null ++
        [Json.num (PyNum.intN 7)])) = Option.none) ∧
    (extract_numeric_value (Json.obj [("z", Json.obj [("k", Json.num (PyNum.intN 3))]),
        ("b", Json.num (PyNum.intN 4))]) = Option.some ("$.b", PyNum.intN 4)) ∧
    (extract_numeric_value (deepChain 2000) = Option.none) ∧
    (∀ url ts, jsonExtractResult url ts (deepChain 2000) =
      { url := url, ok := false, signals := []
        error := Option.some "No numeric value found in JSON payload." }) := by
  have hdeep : extract_numeric_value (deepChain 2000) = Option.none :=
    bfsGo_deepChain 2000 2000 "$" (Nat.le_refl 2000)
  refine ⟨by decide, ?_, ?_, ?_, ?_, by decide, by decide, hdeep, ?_⟩
  · intro p b rest fuel; rfl
  · intro p fields rest fuel; rfl
  · intro p elems rest fuel; rfl
  · intro p elems; rfl
  · intro url ts
    simp only [jsonExtractResult, hdeep]

/-! ### C3: retry-loop lemmas -/

/-- The error text an attempt contributes to `last_error`, when it
contributes one: the exception message, or a non-empty result error. -/
def lastAttemptErrorText (o : AttemptOutcome) : Option String :=
  match o with
  | AttemptOutcome.exn m => Option.some m
  | AttemptOutcome.ret r => if r.ok then Option.none else meaningfulError r

lemma pyOrError_of_meaningful {r : ScrapeResult} {e : String} (fb : String)
    (h : meaningfulError r = Option.some e) : pyOrError r.error fb = e := by
  cases herr : r.error with
  | none => simp [meaningfulError, herr] at h
  | some s =>
    simp only [meaningfulError, herr] at h
    by_cases hs : s = ""
    · rw [if_pos hs] at h; cases h
    · rw [if_neg hs] at h
      cases Option.some.inj h
      simp [pyOrError, hs]

lemma pyOrError_of_meaningful_none {r : ScrapeResult} (fb : String)
    (h : meaningfulError r = Option.none) : pyOrError r.error fb = fb := by
  cases herr : r.error with
  | none => simp [pyOrError]
  | some s =>
    simp only [meaningfulError, herr] at h
    by_cases hs : s = ""
    · simp [pyOrError, hs]
    · rw [if_neg hs] at h; cases h

lemma retryGo_zero (b : ℚ) (att : Nat → AttemptOutcome) (idx : Nat) (le : String) :
    retryGo b att idx le 0 =
      { result := Option.none, attemptsMade := 0, delays := [], lastError := le } := rfl

lemma retryGo_succ (b : ℚ) (att : Nat → AttemptOutcome) (idx : Nat) (le : String)
    (rem : Nat) :
    retryGo b att idx le (rem + 1) =
      match att idx with
      | AttemptOutcome.ret r =>
        if r.ok then
          { result := Option.some r, attemptsMade := 1, delays := [], lastError := le }
        else
          { result := (retryGo b att (idx + 1) (pyOrError r.error le) rem).result
            attemptsMade := (retryGo b att (idx + 1) (pyOrError r.error le) rem).attemptsMade + 1
            delays := (if rem = 0 then [] else [b * 2 ^ idx]) ++
              (retryGo b att (idx + 1) (pyOrError r.error le) rem).delays
            lastError := (retryGo b att (idx + 1) (pyOrError r.error le) rem).lastError }
      | AttemptOutcome.exn m =>
          { result := (retryGo b att (idx + 1) m rem).result
            attemptsMade := (retryGo b att (idx + 1) m rem).attemptsMade + 1
            delays := (if rem = 0 then [] else [b * 2 ^ idx]) ++
              (retryGo b att (idx + 1) m rem).delays
            lastError := (retryGo b att (idx + 1) m rem).lastError } := rfl

lemma retryGo_attempts_le (b : ℚ) (att : Nat → AttemptOutcome) :
    ∀ (rem idx : Nat) (le : String), (retryGo b att idx le rem).attemptsMade ≤ rem := by
  intro rem
  induction rem with
  | zero => intro idx le; simp [retryGo_zero]
  | succ rem ih =>
    intro idx le
    rw [retryGo_succ]
    cases h : att idx with
    | ret r =>
      by_cases hok : r.ok
      · simp [hok]
      · simp only [hok, Bool.false_eq_true, if_false]
        have := ih (idx + 1) (pyOrError r.error le)
        omega
    | exn m =>
      simp only []
      have := ih (idx + 1) m
      omega

lemma retryGo_all_fail (b : ℚ) (att : Nat → AttemptOutcome)
    (hf : ∀ i, isSuccess (att i) = false) :
    ∀ (rem idx : Nat) (le : String),
      (retryGo b att idx le (rem + 1)).result = Option.none ∧
      (retryGo b att idx le (rem + 1)).attemptsMade = rem + 1 ∧
      (retryGo b att idx le (rem + 1)).delays =
        (List.range rem).map (fun j => b * 2 ^ (idx + j)) ∧
      (∀ e, lastAttemptErrorText (att (idx + rem)) = Option.some e →
        (retryGo b att idx le (rem + 1)).lastError = e) := by
  intro rem
  induction rem with
  | zero =>
    intro idx le
    rw [retryGo_succ]
    cases h : att idx with
    | ret r =>
      have hok : r.ok = false := by
        have := hf idx
        rw [h] at this
        simpa [isSuccess] using this
      simp only [hok, Bool.false_eq_true, if_false, retryGo_zero]
      refine ⟨by simp, by simp, by simp, ?_⟩
      intro e he
      rw [Nat.add_zero, h] at he
      simp only [lastAttemptErrorText, hok, Bool.false_eq_true, if_false] at he
      simpa using pyOrError_of_meaningful le he
    | exn m =>
      simp only [retryGo_zero]
      refine ⟨by simp, by simp, by simp, ?_⟩
      intro e he
      rw [Nat.add_zero, h] at he
      simp only [lastAttemptErrorText] at he
      simpa using Option.some.inj he
  | succ m ih =>
    intro idx le
    rw [retryGo_succ]
    cases h : att idx with
    | ret r =>
      have hok : r.ok = false := by
        have := hf idx
        rw [h] at this
        simpa [isSuccess] using this
      simp only [hok, Bool.false_eq_true, if_false]
      rcases ih (idx + 1) (pyOrError r.error le) with ⟨h1, h2, h3, h4⟩
      refine ⟨by simp [h1], by simp [h2], ?_, ?_⟩
      · simp only [h3, List.range_succ_eq_map, Nat.succ_ne_zero, if_false,
          List.singleton_append, List.map_cons, List.map_map, Nat.add_zero]
        congr 1
        apply List.map_congr_left
        intro j _
        simp only [Function.comp]
        rw [(by omega : idx + 1 + j = idx + (j + 1))]
      · intro e he
        rw [(by omega : idx + (m + 1) = idx + 1 + m)] at he
        exact h4 e he
    | exn mm =>
      simp only []
      rcases ih (idx + 1) mm with ⟨h1, h2, h3, h4⟩
      refine ⟨by simp [h1], by simp [h2], ?_, ?_⟩
      · simp only [h3, List.range_succ_eq_map, Nat.succ_ne_zero, if_false,
          List.singleton_append, List.map_cons, List.map_map, Nat.add_zero]
        congr 1
        apply List.map_congr_left
        intro j _
        simp only [Function.comp]
        rw [(by omega : idx + 1 + j = idx + (j + 1))]
      · intro e he
        rw [(by omega : idx + (m + 1) = idx + 1 + m)] at he
        exact h4 e he

lemma max_one_succ (n : Nat) : max 1 (n + 1) = n + 1 := by omega

/-- C3: each adapter's retry loop makes at most `max_retries + 1` fetch
calls; a permanently failing adapter is called exactly `max_retries + 1`
times with backoff sleeps `retry_backoff_s · 2^i` for `i = 0 .. max_retries-1`
between calls, the returned failure carrying the most recent error text
(prefixed with the adapter name); with `max_retries = 2` that is exactly 3
attempts with delays `retry_backoff_s` then `2 · retry_backoff_s`. -/
theorem claim_C3_retry_loop :
    (∀ cfg a req, (fetchWithRetries cfg a req).attemptsMade ≤ cfg.max_retries + 1) ∧
    (∀ cfg a req, (∀ i, isSuccess (a.attempt req i) = false) →
      (fetchWithRetries cfg a req).attemptsMade = cfg.max_retries + 1 ∧
      (fetchWithRetries cfg a req).delays =
        (List.range cfg.max_retries).map (fun i => cfg.retry_backoff_s * 2 ^ i) ∧
      (fetchWithRetries cfg a req).result.ok = false ∧
      (∀ e, lastAttemptErrorText (a.attempt req cfg.max_retries) = Option.some e →
        (fetchWithRetries cfg a req).result.error =
          Option.some (a.name ++ ": " ++ e))) ∧
    (∀ cfg a req, cfg.max_retries = 2 → (∀ i, isSuccess (a.attempt req i) = false) →
      (fetchWithRetries cfg a req).attemptsMade = 3 ∧
      (fetchWithRetries cfg a req).delays =
        [cfg.retry_backoff_s, 2 * cfg.retry_backoff_s]) := by
  have hmain : ∀ cfg (a : AdapterModel) req, (∀ i, isSuccess (a.attempt req i) = false) →
      (fetchWithRetries cfg a req).attemptsMade = cfg.max_retries + 1 ∧
      (fetchWithRetries cfg a req).delays =
        (List.range cfg.max_retries).map (fun i => cfg.retry_backoff_s * 2 ^ i) ∧
      (fetchWithRetries cfg a req).result.ok = false ∧
      (∀ e, lastAttemptErrorText (a.attempt req cfg.max_retries) = Option.some e →
        (fetchWithRetries cfg a req).result.error =
          Option.some (a.name ++ ": " ++ e)) := by
    intro cfg a req hf
    rcases retryGo_all_fail cfg.retry_backoff_s (a.attempt req) hf
      cfg.max_retries 0 "Unknown fetch error." with ⟨h1, h2, h3, h4⟩
    simp only [fetchWithRetries, max_one_succ, h1]
    refine ⟨h2, ?_, by simp, ?_⟩
    · rw [h3]
      apply List.map_congr_left
      intro j _
      simp
    · intro e he
      rw [h4 e (by simpa using he)]
  refine ⟨?_, hmain, ?_⟩
  · intro cfg a req
    have h := retryGo_attempts_le cfg.retry_backoff_s (a.attempt req)
      (max 1 (cfg.max_retries + 1)) 0 "Unknown fetch error."
    rw [max_one_succ] at h
    simp only [fetchWithRetries, max_one_succ]
    cases hres : (retryGo cfg.retry_backoff_s (a.attempt req) 0 "Unknown fetch error."
        (cfg.max_retries + 1)).result with
    | some r => simp only [hres]; omega
    | none => simp only [hres]; omega
  · intro cfg a req hmr hf
    rcases hmain cfg a req hf with ⟨h1, h2, _, _⟩
    rw [hmr] at h1 h2
    refine ⟨h1, ?_⟩
    rw [h2]
    have hr2 : List.range 2 = [0, 1] := rfl
    rw [hr2]
    simp only [List.map_cons, List.map_nil, pow_zero, pow_one, mul_one]
    rw [mul_comm]

/-- An adapter whose every fetch call raises. -/
def failingAdapter : AdapterModel :=
  { name := "csv"
    canHandle := fun _ => true
    attempt := fun _ _ => AttemptOutcome.exn "boom" }

/-- A concrete request used by witnesses. -/
def sampleRequest : ScrapeRequest :=
  { question_id := 101
    question_title := "Article count"
    question_type := "numeric"
    scheduled_resolve_time := Option.none
    url := "https://example.com/data.csv"
    resolution_text := "See https://example.com/data.csv" }

/-- C3 witness: with the default config (`max_retries = 2`) a permanently
failing adapter is attempted exactly 3 times with the two doubling delays. -/
theorem claim_C3_witness :
    (fetchWithRetries defaultConfig failingAdapter sampleRequest).attemptsMade = 3 ∧
    (fetchWithRetries defaultConfig failingAdapter sampleRequest).delays =
      [defaultConfig.retry_backoff_s, 2 * defaultConfig.retry_backoff_s] :=
  claim_C3_retry_loop.2.2 defaultConfig failingAdapter sampleRequest rfl (fun _ => rfl)

/-! ### C1: adapter-walk lemmas -/

lemma getLast?_getD_cons (x : String) (l : List String) (fb : String) :
    ((x :: l).getLast?.getD fb) = l.getLast?.getD x := by
  cases l with
  | nil => rfl
  | cons y t =>
    rw [List.getLast?_cons_cons]
    have hne : (y :: t) ≠ [] := by simp
    have hsome : ((y :: t).getLast?).isSome = true := by
      rw [List.getLast?_isSome]
      exact hne
    rcases Option.isSome_iff_exists.mp hsome with ⟨z, hz⟩
    rw [hz]
    rfl

lemma walkGo_eq_spec (cfg : ScraperConfig) (req : ScrapeRequest) :
    ∀ (chain : List AdapterModel) (fb : String),
      walkGo cfg req chain fb =
        match (chain.filter (fun a => a.canHandle req)).find?
            (fun a => acceptedResult cfg a req) with
        | Option.some a => (fetchWithRetries cfg a req).result
        | Option.none =>
          { url := req.url, ok := false, signals := []
            error := Option.some
              (((chain.filter (fun a => a.canHandle req)).filterMap
                (fun a => meaningfulError (fetchWithRetries cfg a req).result)).getLast?.getD
                fb) } := by
  intro chain
  induction chain with
  | nil => intro fb; rfl
  | cons a rest ih =>
    intro fb
    by_cases hc : a.canHandle req = true
    · rw [List.filter_cons_of_pos (by simpa using hc)]
      by_cases hacc : acceptedResult cfg a req = true
      · rw [List.find?_cons_of_pos _ (by simpa using hacc)]
        have hacc' : ((fetchWithRetries cfg a req).result.ok &&
            !(fetchWithRetries cfg a req).result.signals.isEmpty) = true := hacc
        simp only [walkGo, hc, if_true, hacc', if_pos]
      · rw [List.find?_cons_of_neg _ (by simpa using hacc)]
        have hacc' : ((fetchWithRetries cfg a req).result.ok &&
            !(fetchWithRetries cfg a req).result.signals.isEmpty) = false := by
          simpa [acceptedResult] using hacc
        have hlhs : walkGo cfg req (a :: rest) fb =
            walkGo cfg req rest
              (pyOrError (fetchWithRetries cfg a req).result.error fb) := by
          simp only [walkGo, hc, if_true, hacc', Bool.false_eq_true, if_false]
        rw [hlhs, ih]
        cases hme : meaningfulError (fetchWithRetries cfg a req).result with
        | none =>
          rw [List.filterMap_cons_none (by simpa using hme),
            pyOrError_of_meaningful_none fb hme]
        | some s =>
          rw [List.filterMap_cons_some (by simpa using hme),
            pyOrError_of_meaningful fb hme]
          cases hfind : (rest.filter (fun a => a.canHandle req)).find?
              (fun a => acceptedResult cfg a req) with
          | some b => rfl
          | none =>
            simp only []
            rw [getLast?_getD_cons]
    · have hcf : a.canHandle req = false := by simpa using hc
      rw [List.filter_cons_of_neg (by simp [hcf])]
      have hlhs : walkGo cfg req (a :: rest) fb = walkGo cfg req rest fb := by
        simp only [walkGo, hcf, Bool.false_eq_true, if_false]
      rw [hlhs, ih]

/-- C1: on the cache-miss path the per-URL flow walks the fixed chain in
order, runs the retry loop for every adapter whose `can_handle` holds, and
returns the first retried result that is a success carrying at least one
signal; an adapter exhausted without such a result is abandoned for the next
capable one; with no capable adapter at all the result is a failure with
error exactly "No adapter accepted this URL."; with every capable adapter
exhausted it is a failure carrying the last meaningful error encountered
(that fixed message when no meaningful error arose). -/
theorem claim_C1_adapter_walk :
    ∀ cfg chain req, adapterWalk cfg chain req = walkSpecC1 cfg chain req := by
  intro cfg chain req
  have h := walkGo_eq_spec cfg req chain "No adapter accepted this URL."
  simpa [adapterWalk, walkSpecC1] using h

/-! ### C4: cache lemmas -/

lemma cacheLookup_set (cfg : ScraperConfig) (wt : ℚ) (st : Cache) (url : String)
    (r : ScrapeResult) :
    cacheLookup (set_cached cfg wt st url r) url =
      Option.some (wt + cfg.per_run_cache_ttl_s, r) := by
  simp [cacheLookup, set_cached, List.find?_cons_of_pos]

lemma cacheErase_set (cfg : ScraperConfig) (wt : ℚ) (st : Cache) (url : String)
    (r : ScrapeResult) :
    cacheErase (set_cached cfg wt st url r) url = cacheErase st url := by
  simp [cacheErase, set_cached, List.filter_filter, Bool.and_self]

lemma cacheLookup_erase_ne (st : Cache) (url uo : String) (h : uo ≠ url) :
    cacheLookup (cacheErase st url) uo = cacheLookup st uo := by
  induction st with
  | nil => rfl
  | cons e t ih =>
    by_cases he : e.1 = url
    · have h1 : (e.1 == url) = true := by simp [he]
      have h2 : (e.1 == uo) = false := by
        simp only [beq_eq_false_iff_ne, ne_eq]
        rw [he]
        exact fun hx => h hx.symm
      simp only [cacheErase, List.filter_cons, h1, Bool.not_true, Bool.false_eq_true,
        if_false]
      rw [← cacheErase]
      rw [ih]
      simp only [cacheLookup, List.find?_cons, h2]
    · have h1 : (e.1 == url) = false := by simp [he]
      simp only [cacheErase, List.filter_cons, h1, Bool.not_false, if_true]
      rw [← cacheErase]
      by_cases hu : e.1 = uo
      · have h2 : (e.1 == uo) = true := by simp [hu]
        simp only [cacheLookup, List.find?_cons, h2]
      · have h2 : (e.1 == uo) = false := by simp [hu]
        simp only [cacheLookup, List.find?_cons, h2]
        rw [← cacheLookup, ← cacheLookup]
        exact ih

lemma cacheLookup_cons_ne (e : String × ℚ × ScrapeResult) (tl : Cache) (uo : String)
    (h : (e.1 == uo) = false) : cacheLookup (e :: tl) uo = cacheLookup tl uo := by
  simp [cacheLookup, List.find?_cons, h]

lemma get_cached_fst (now : ℚ) (cache : Cache) (url : String) :
    (get_cached now cache url).1 =
      match cacheLookup cache url with
      | Option.none => Option.none
      | Option.some er => if er.1 ≤ now then Option.none else Option.some er.2 := by
  simp only [get_cached]
  cases cacheLookup cache url with
  | none => rfl
  | some er =>
    by_cases h : er.1 ≤ now
    · simp [h]
    · simp [h]

/-- C4: the cache is keyed by exact URL and stores whatever result (success
or failure) the walk produced; a lookup strictly before `write + TTL` returns
the entry unchanged without eviction, a lookup at-or-after the deadline
treats it as absent and evicts it; on the per-URL flow this means: a fresh
hit bypasses the fetch, the first lookup after expiry runs exactly one fresh
adapter walk and re-caches its result, and a further lookup inside the new
TTL window returns that fresh result without fetching. -/
theorem claim_C4_cache_ttl :
    (∀ cfg (st : Cache) url r (wt t : ℚ), t < wt + cfg.per_run_cache_ttl_s →
      get_cached t (set_cached cfg wt st url r) url =
        (Option.some r, set_cached cfg wt st url r)) ∧
    (∀ cfg (st : Cache) url r (wt t : ℚ), wt + cfg.per_run_cache_ttl_s ≤ t →
      get_cached t (set_cached cfg wt st url r) url =
        (Option.none, cacheErase st url)) ∧
    (∀ cfg (st : Cache) url r (wt t : ℚ) uo, uo ≠ url →
      (get_cached t (set_cached cfg wt st url r) uo).1 = (get_cached t st uo).1) ∧
    (∀ cfg chain (st : Cache) req r (wt t : ℚ), t < wt + cfg.per_run_cache_ttl_s →
      scrapeUrl cfg chain t (set_cached cfg wt st req.url r) req =
        { result := r, cache := set_cached cfg wt st req.url r, fetched := false }) ∧
    (∀ cfg chain (st : Cache) req r (wt t : ℚ), wt + cfg.per_run_cache_ttl_s ≤ t →
      scrapeUrl cfg chain t (set_cached cfg wt st req.url r) req =
        { result := adapterWalk cfg chain req
          cache := set_cached cfg t (cacheErase st req.url) req.url
            (adapterWalk cfg chain req)
          fetched := true }) ∧
    (∀ cfg chain (st : Cache) req r (wt t t2 : ℚ),
      wt + cfg.per_run_cache_ttl_s ≤ t → t2 < t + cfg.per_run_cache_ttl_s →
      (scrapeUrl cfg chain t2
          (scrapeUrl cfg chain t (set_cached cfg wt st req.url r) req).cache
          req).fetched = false ∧
      (scrapeUrl cfg chain t2
          (scrapeUrl cfg chain t (set_cached cfg wt st req.url r) req).cache
          req).result =
        (scrapeUrl cfg chain t (set_cached cfg wt st req.url r) req).result) := by
  have hfresh : ∀ cfg (st : Cache) url r (wt t : ℚ), t < wt + cfg.per_run_cache_ttl_s →
      get_cached t (set_cached cfg wt st url r) url =
        (Option.some r, set_cached cfg wt st url r) := by
    intro cfg st url r wt t ht
    simp only [get_cached, cacheLookup_set]
    rw [if_neg (by exact not_le.mpr ht)]
  have hexp : ∀ cfg (st : Cache) url r (wt t : ℚ), wt + cfg.per_run_cache_ttl_s ≤ t →
      get_cached t (set_cached cfg wt st url r) url =
        (Option.none, cacheErase st url) := by
    intro cfg st url r wt t ht
    simp only [get_cached, cacheLookup_set]
    rw [if_pos ht, cacheErase_set]
  have hhit : ∀ cfg chain (st : Cache) req r (wt t : ℚ),
      t < wt + cfg.per_run_cache_ttl_s →
      scrapeUrl cfg chain t (set_cached cfg wt st req.url r) req =
        { result := r, cache := set_cached cfg wt st req.url r, fetched := false } := by
    intro cfg chain st req r wt t ht
    simp only [scrapeUrl, hfresh cfg st req.url r wt t ht]
  have hmiss : ∀ cfg chain (st : Cache) req r (wt t : ℚ),
      wt + cfg.per_run_cache_ttl_s ≤ t →
      scrapeUrl cfg chain t (set_cached cfg wt st req.url r) req =
        { result := adapterWalk cfg chain req
          cache := set_cached cfg t (cacheErase st req.url) req.url
            (adapterWalk cfg chain req)
          fetched := true } := by
    intro cfg chain st req r wt t ht
    simp only [scrapeUrl, hexp cfg st req.url r wt t ht]
  refine ⟨hfresh, hexp, ?_, hhit, hmiss, ?_⟩
  · intro cfg st url r wt t uo hne
    have h2 : (url == uo) = false := by
      simp only [beq_eq_false_iff_ne, ne_eq]
      exact fun hx => hne hx.symm
    have hlk : cacheLookup (set_cached cfg wt st url r) uo = cacheLookup st uo := by
      show cacheLookup ((url, wt + cfg.per_run_cache_ttl_s, r) :: cacheErase st url) uo =
        cacheLookup st uo
      rw [cacheLookup_cons_ne _ _ _ h2, cacheLookup_erase_ne st url uo hne]
    rw [get_cached_fst, get_cached_fst, hlk]
  · intro cfg chain st req r wt t t2 h1 h2
    rw [hmiss cfg chain st req r wt t h1]
    simp only []
    rw [hhit cfg chain (cacheErase st req.url) req (adapterWalk cfg chain req) t t2 h2]
    exact ⟨rfl, rfl⟩

/-- A concrete successful result to pre-populate caches in witnesses. -/
def sampleResult : ScrapeResult :=
  { url := sampleRequest.url, ok := true, signals := [], error := Option.none }

/-- C4 witness: with the default one-hour TTL, an entry written at time 0 is
still served (no fetch) at time 3599, and the first lookup at time 3600 runs
a fresh fetch. -/
theorem claim_C4_witness :
    scrapeUrl defaultConfig [failingAdapter] 3599
        (set_cached defaultConfig 0 [] sampleRequest.url sampleResult) sampleRequest =
      { result := sampleResult
        cache := set_cached defaultConfig 0 [] sampleRequest.url sampleResult
        fetched := false } ∧
    (scrapeUrl defaultConfig [failingAdapter] 3600
        (set_cached defaultConfig 0 [] sampleRequest.url sampleResult)
        sampleRequest).fetched = true := by
  constructor
  · exact claim_C4_cache_ttl.2.2.2.1 defaultConfig [failingAdapter] [] sampleRequest
      sampleResult 0 3599 (by norm_num [defaultConfig])
  · rw [claim_C4_cache_ttl.2.2.2.2.1 defaultConfig [failingAdapter] [] sampleRequest
      sampleResult 0 3600 (by norm_num [defaultConfig])]

/-! ### C5: batch lemmas -/

/-- The chain adapters all stamp the request's URL on returned results, as
every concrete adapter in adapters/ does. -/
def AdapterUrlOk (a : AdapterModel) : Prop :=
  ∀ req i r, a.attempt req i = AttemptOutcome.ret r → r.url = req.url

/-- A failed result carries a non-empty error message. -/
def ErrorPopulated (r : ScrapeResult) : Prop :=
  r.ok = false → ∃ s, r.error = Option.some s ∧ s ≠ ""

/-- Cache well-formedness: every entry is keyed by its result's URL and a
cached failure has a populated error. -/
def CacheWF (cache : Cache) : Prop :=
  ∀ e ∈ cache, (e.2.2).url = e.1 ∧ ErrorPopulated e.2.2

lemma retryGo_result_some (b : ℚ) (att : Nat → AttemptOutcome) :
    ∀ (rem idx : Nat) (le : String) (r : ScrapeResult),
      (retryGo b att idx le rem).result = Option.some r →
      (∃ i, att i = AttemptOutcome.ret r) ∧ r.ok = true := by
  intro rem
  induction rem with
  | zero => intro idx le r h; rw [retryGo_zero] at h; cases h
  | succ rem ih =>
    intro idx le r h
    rw [retryGo_succ] at h
    cases ha : att idx with
    | ret r2 =>
      simp only [ha] at h
      by_cases hok : r2.ok
      · rw [if_pos hok] at h
        have := Option.some.inj h
        rw [← this]
        exact ⟨⟨idx, ha⟩, hok⟩
      · rw [if_neg hok] at h
        exact ih (idx + 1) (pyOrError r2.error le) r h
    | exn m =>
      simp only [ha] at h
      exact ih (idx + 1) m r h

lemma string_append_colon_ne (x y : String) : (x ++ ": " ++ y) ≠ "" := by
  intro h
  have := congrArg String.length h
  rw [String.length_append, String.length_append] at this
  have h2 : (": " : String).length = 2 := rfl
  rw [h2] at this
  have h0 : ("" : String).length = 0 := rfl
  rw [h0] at this
  omega

lemma fetchWithRetries_props (cfg : ScraperConfig) (a : AdapterModel)
    (req : ScrapeRequest) (hA : AdapterUrlOk a) :
    (fetchWithRetries cfg a req).result.url = req.url ∧
    ErrorPopulated (fetchWithRetries cfg a req).result := by
  cases hres : (retryGo cfg.retry_backoff_s (a.attempt req) 0 "Unknown fetch error."
      (max 1 (cfg.max_retries + 1))).result with
  | some r =>
    have hfr : (fetchWithRetries cfg a req).result = r := by
      simp only [fetchWithRetries, hres]
    rcases retryGo_result_some cfg.retry_backoff_s (a.attempt req) _ 0 _ r hres with
      ⟨⟨i, hi⟩, hok⟩
    rw [hfr]
    exact ⟨hA req i r hi, fun hf => by rw [hok] at hf; cases hf⟩
  | none =>
    have hfr : (fetchWithRetries cfg a req).result =
        { url := req.url, ok := false, signals := []
          error := Option.some (a.name ++ ": " ++
            (retryGo cfg.retry_backoff_s (a.attempt req) 0 "Unknown fetch error."
              (max 1 (cfg.max_retries + 1))).lastError) } := by
      simp only [fetchWithRetries, hres]
    rw [hfr]
    exact ⟨rfl, fun _ => ⟨_, rfl, string_append_colon_ne _ _⟩⟩

lemma pyOrError_ne_empty (e : Option String) (fb : String) (h : fb ≠ "") :
    pyOrError e fb ≠ "" := by
  cases e with
  | none => simpa [pyOrError] using h
  | some s =>
    by_cases hs : s = ""
    · simpa [pyOrError, hs] using h
    · simp only [pyOrError, if_neg hs]
      exact hs

lemma walkGo_props (cfg : ScraperConfig) (req : ScrapeRequest) :
    ∀ (chain : List AdapterModel) (fb : String),
      (∀ a ∈ chain, AdapterUrlOk a) → fb ≠ "" →
      (walkGo cfg req chain fb).url = req.url ∧
      ErrorPopulated (walkGo cfg req chain fb) := by
  intro chain
  induction chain with
  | nil =>
    intro fb _ hfb
    exact ⟨rfl, fun _ => ⟨fb, rfl, hfb⟩⟩
  | cons a rest ih =>
    intro fb hA hfb
    by_cases hc : a.canHandle req = true
    · by_cases hacc : ((fetchWithRetries cfg a req).result.ok &&
          !(fetchWithRetries cfg a req).result.signals.isEmpty) = true
      · have hgo : walkGo cfg req (a :: rest) fb = (fetchWithRetries cfg a req).result := by
          simp only [walkGo, hc, if_true, hacc, if_pos]
        rw [hgo]
        exact fetchWithRetries_props cfg a req (hA a (List.mem_cons_self a rest))
      · have hgo : walkGo cfg req (a :: rest) fb =
            walkGo cfg req rest
              (pyOrError (fetchWithRetries cfg a req).result.error fb) := by
          simp only [walkGo, hc, if_true]
          rw [if_neg (by simpa using hacc)]
        rw [hgo]
        exact ih _ (fun x hx => hA x (List.mem_cons_of_mem a hx))
          (pyOrError_ne_empty _ fb hfb)
    · have hgo : walkGo cfg req (a :: rest) fb = walkGo cfg req rest fb := by
        have hcf : a.canHandle req = false := by simpa using hc
        simp only [walkGo, hcf, Bool.false_eq_true, if_false]
      rw [hgo]
      exact ih fb (fun x hx => hA x (List.mem_cons_of_mem a hx)) hfb

lemma adapterWalk_props (cfg : ScraperConfig) (chain : List AdapterModel)
    (req : ScrapeRequest) (hA : ∀ a ∈ chain, AdapterUrlOk a) :
    (adapterWalk cfg chain req).url = req.url ∧
    ErrorPopulated (adapterWalk cfg chain req) :=
  walkGo_props cfg req chain "No adapter accepted this URL." hA (by decide)

lemma CacheWF_erase (st : Cache) (url : String) (h : CacheWF st) :
    CacheWF (cacheErase st url) :=
  fun e he => h e (List.mem_of_mem_filter he)

lemma get_cached_hit (now : ℚ) (st : Cache) (url : String) (r : ScrapeResult)
    (h : (get_cached now st url).1 = Option.some r) :
    ∃ exp, (url, exp, r) ∈ st := by
  simp only [get_cached] at h
  cases hl : cacheLookup st url with
  | none => simp [hl] at h
  | some er =>
    by_cases hexp : er.1 ≤ now
    · simp [hl, hexp] at h
    · simp only [hl, if_neg hexp] at h
      have hr : er.2 = r := Option.some.inj h
      simp only [cacheLookup] at hl
      cases hf : List.find? (fun e => e.1 == url) st with
      | none => simp [hf] at hl
      | some e =>
        simp only [hf] at hl
        have hmem := List.mem_of_find?_eq_some hf
        have hpred := List.find?_some hf
        have hkey : e.1 = url := by simpa using hpred
        have her : e.2 = er := Option.some.inj hl
        refine ⟨e.2.1, ?_⟩
        have heq : (url, e.2.1, e.2.2) = e := by
          rw [← hkey]
        rw [← hr, ← her]
        rw [heq]
        exact hmem

lemma get_cached_snd_cases (now : ℚ) (st : Cache) (url : String) :
    (get_cached now st url).2 = st ∨ (get_cached now st url).2 = cacheErase st url := by
  cases hl : cacheLookup st url with
  | none => left; simp [get_cached, hl]
  | some er =>
    by_cases hexp : er.1 ≤ now
    · right; simp [get_cached, hl, hexp]
    · left; simp [get_cached, hl, hexp]

lemma scrapeUrl_props (cfg : ScraperConfig) (chain : List AdapterModel) (now : ℚ)
    (st : Cache) (req : ScrapeRequest)
    (hA : ∀ a ∈ chain, AdapterUrlOk a) (hW : CacheWF st) :
    (scrapeUrl cfg chain now st req).result.url = req.url ∧
    ErrorPopulated (scrapeUrl cfg chain now st req).result ∧
    CacheWF (scrapeUrl cfg chain now st req).cache := by
  have hW2 : CacheWF (get_cached now st req.url).2 := by
    rcases get_cached_snd_cases now st req.url with h | h
    · rw [h]; exact hW
    · rw [h]; exact CacheWF_erase st req.url hW
  simp only [scrapeUrl]
  cases hg : (get_cached now st req.url).1 with
  | some r =>
    rcases get_cached_hit now st req.url r hg with ⟨exp, hmem⟩
    rcases hW (req.url, exp, r) hmem with ⟨hurl, hpop⟩
    exact ⟨hurl, hpop, hW2⟩
  | none =>
    rcases adapterWalk_props cfg chain req hA with ⟨hurl, hpop⟩
    refine ⟨hurl, hpop, ?_⟩
    intro e he
    simp only [set_cached] at he
    rcases List.mem_cons.mp he with rfl | he2
    · exact ⟨hurl, hpop⟩
    · exact hW2 e (List.mem_of_mem_filter he2)

lemma scrapeBatch_props (cfg : ScraperConfig) (chain : List AdapterModel) (now : ℚ)
    (hA : ∀ a ∈ chain, AdapterUrlOk a) :
    ∀ (reqs : List ScrapeRequest) (st : Cache), CacheWF st →
      (scrapeBatch cfg chain now st reqs).1.length = reqs.length ∧
      (∀ i, ((scrapeBatch cfg chain now st reqs).1.get? i).map ScrapeResult.url =
        (reqs.get? i).map ScrapeRequest.url) ∧
      (∀ r ∈ (scrapeBatch cfg chain now st reqs).1, ErrorPopulated r) ∧
      CacheWF (scrapeBatch cfg chain now st reqs).2 := by
  intro reqs
  induction reqs with
  | nil =>
    intro st hW
    refine ⟨rfl, ?_, ?_, hW⟩
    · intro i
      cases i <;> rfl
    · intro r hr
      cases hr
  | cons req rest ih =>
    intro st hW
    rcases scrapeUrl_props cfg chain now st req hA hW with ⟨hurl, hpop, hW2⟩
    rcases ih (scrapeUrl cfg chain now st req).cache hW2 with ⟨h1, h2, h3, h4⟩
    simp only [scrapeBatch]
    refine ⟨by simp [h1], ?_, ?_, h4⟩
    · intro i
      cases i with
      | zero => simpa using hurl
      | succ j => simpa using h2 j
    · intro r hr
      rcases List.mem_cons.mp hr with rfl | hr2
      · exact hpop
      · exact h3 r hr2

/-- The per-URL contract on the graceful path (no `can_handle` raise): one
result per URL in order, request-URL stamping, populated errors on failure. -/
lemma scrape_question_sources_graceful_contract (cfg : ScraperConfig)
    (chain : List AdapterModel) (now : ℚ)
    (cache : Cache) (d : QuestionDetails) (urls : List String)
    (hA : ∀ a ∈ chain, AdapterUrlOk a) (hW : CacheWF cache) :
    (scrape_question_sources cfg chain now cache d urls).1.length = urls.length ∧
    (∀ i, ((scrape_question_sources cfg chain now cache d urls).1.get? i).map
        ScrapeResult.url = urls.get? i) ∧
    (∀ r ∈ (scrape_question_sources cfg chain now cache d urls).1,
      r.ok = false → ∃ s, r.error = Option.some s ∧ s ≠ "") := by
  rcases scrapeBatch_props cfg chain now hA (urls.map (build_request d)) cache hW with
    ⟨h1, h2, h3, _⟩
  refine ⟨by simpa [scrape_question_sources] using h1, ?_, ?_⟩
  · intro i
    have hi := h2 i
    show ((scrapeBatch cfg chain now cache (urls.map (build_request d))).1.get? i).map
      ScrapeResult.url = urls.get? i
    rw [hi]
    simp only [List.get?_map, Option.map_map]
    cases hu : urls.get? i with
    | none => simp [hu]
    | some u => simp [hu, build_request, Function.comp]
  · intro r hr
    exact h3 r hr

/-! ### C5: the fallible `can_handle` path

`urllib.parse.urlparse` is not total: CPython's `urlsplit` raises
`ValueError("Invalid IPv6 URL")` when the netloc contains `[` without `]`
(or vice versa).  The Wikipedia, JSON-API and CSV adapters call `urlparse`
inside `can_handle`, and `scrape_url` catches exceptions only around
`adapter.fetch` (inside `_fetch_with_retries`) — a `can_handle` raise
propagates through `scrape_url` and `asyncio.gather` out of
`scrape_question_sources`.  The models below make that path explicit; the
refinement lemmas show they coincide with the total `AdapterModel` walk
exactly when no `can_handle` call raises. -/

/-- Fallible model of `urllib.parse.urlparse`: CPython's mismatched-bracket
check on the netloc (`Invalid IPv6 URL`), else the parse of `urlparse`. -/
def urlparseE (url : String) : Except String UrlParts :=
  let netloc := (netlocSplit (schemeSplit url).2).1
  if (strHasSub netloc "[" && !(strHasSub netloc "]")) ||
      (strHasSub netloc "]" && !(strHasSub netloc "[")) then
    Except.error "Invalid IPv6 URL"
  else Except.ok (urlparse url)

/-- wikipedia.py `WikipediaAdapter.can_handle`, with the `urlparse` raise. -/
def wikipediaCanHandleE (req : ScrapeRequest) : Except String Bool := do
  let p ← urlparseE req.url
  return strHasSub (toLowerStr p.netloc) "wikipedia.org"

/-- json_api.py `JsonApiAdapter.can_handle`, with the `urlparse` raise. -/
def jsonApiCanHandleE (req : ScrapeRequest) : Except String Bool := do
  let p ← urlparseE req.url
  let path := toLowerStr p.path
  return strEndsWith path ".json" || strHasSub path "api" ||
    strHasSub (toLowerStr p.query) "format=json"

/-- csv_file.py `CsvAdapter.can_handle`, with the `urlparse` raise. -/
def csvCanHandleE (req : ScrapeRequest) : Except String Bool := do
  let p ← urlparseE req.url
  return strEndsWith (toLowerStr p.path) ".csv"

/-- html_static.py `StaticHtmlAdapter.can_handle`: always true, no parsing. -/
def htmlCanHandleE (_ : ScrapeRequest) : Except String Bool :=
  Except.ok true

/-- An adapter of the chain with its fallible `can_handle`. -/
structure AdapterModelE where
  name : String
  canHandleE : ScrapeRequest → Except String Bool
  attempt : ScrapeRequest → Nat → AttemptOutcome

/-- The total view of a fallible adapter (a raising `can_handle` read as
false).  The retry loop reads only the name and the fetch behaviour, so it
is run through this view. -/
def AdapterModelE.toTotal (a : AdapterModelE) : AdapterModel :=
  { name := a.name
    canHandle := fun req =>
      match a.canHandleE req with
      | Except.ok b => b
      | Except.error _ => false
    attempt := a.attempt }

/-- The adapter loop of `scrape_url` with the `can_handle` raise made
explicit: a raising `can_handle` propagates (there is no try/except around
it), while fetch failures stay inside the retry loop. -/
def walkGoE (cfg : ScraperConfig) (req : ScrapeRequest) :
    List AdapterModelE → String → Except String ScrapeResult
  | [], fb =>
    Except.ok { url := req.url, ok := false, signals := [], error := Option.some fb }
  | a :: rest, fb =>
    match a.canHandleE req with
    | Except.error e => Except.error e
    | Except.ok ch =>
      if ch then
        if (fetchWithRetries cfg a.toTotal req).result.ok &&
            !(fetchWithRetries cfg a.toTotal req).result.signals.isEmpty then
          Except.ok (fetchWithRetries cfg a.toTotal req).result
        else walkGoE cfg req rest
          (pyOrError (fetchWithRetries cfg a.toTotal req).result.error fb)
      else walkGoE cfg req rest fb

/-- The cache-miss body of `scrape_url` over fallible adapters. -/
def adapterWalkE (cfg : ScraperConfig) (chainE : List AdapterModelE)
    (req : ScrapeRequest) : Except String ScrapeResult :=
  walkGoE cfg req chainE "No adapter accepted this URL."

/-- orchestrator.py `scrape_url` over fallible adapters: the cache hit path
never raises; the miss path propagates a `can_handle` exception. -/
def scrapeUrlE (cfg : ScraperConfig) (chainE : List AdapterModelE) (now : ℚ)
    (cache : Cache) (req : ScrapeRequest) : Except String UrlStep :=
  let gc := get_cached now cache req.url
  match gc.1 with
  | Option.some r => Except.ok { result := r, cache := gc.2, fetched := false }
  | Option.none =>
    match adapterWalkE cfg chainE req with
    | Except.error e => Except.error e
    | Except.ok r =>
      Except.ok { result := r, cache := set_cached cfg now gc.2 req.url r, fetched := true }

/-- The per-question batch over fallible adapters: `asyncio.gather`
propagates a raised exception instead of returning results. -/
def scrapeBatchE (cfg : ScraperConfig) (chainE : List AdapterModelE) (now : ℚ) :
    Cache → List ScrapeRequest → Except String (List ScrapeResult × Cache)
  | cache, [] => Except.ok ([], cache)
  | cache, req :: rest =>
    match scrapeUrlE cfg chainE now cache req with
    | Except.error e => Except.error e
    | Except.ok st =>
      match scrapeBatchE cfg chainE now st.cache rest with
      | Except.error e => Except.error e
      | Except.ok tail => Except.ok (st.result :: tail.1, tail.2)

/-- orchestrator.py `scrape_question_sources` over fallible adapters. -/
def scrape_question_sourcesE (cfg : ScraperConfig) (chainE : List AdapterModelE)
    (now : ℚ) (cache : Cache) (d : QuestionDetails) (urls : List String) :
    Except String (List ScrapeResult × Cache) :=
  scrapeBatchE cfg chainE now cache (urls.map (build_request d))

/-- The default chain's `can_handle` behaviours (`_build_default_adapters`
without the browser).  The fetch oracle is never consulted by the failing
run below, which raises before any fetch. -/
def defaultChainE : List AdapterModelE :=
  [{ name := "wikipedia_api", canHandleE := wikipediaCanHandleE
     attempt := fun _ _ => AttemptOutcome.exn "network unavailable" },
   { name := "json_api", canHandleE := jsonApiCanHandleE
     attempt := fun _ _ => AttemptOutcome.exn "network unavailable" },
   { name := "csv", canHandleE := csvCanHandleE
     attempt := fun _ _ => AttemptOutcome.exn "network unavailable" },
   { name := "html_static", canHandleE := htmlCanHandleE
     attempt := fun _ _ => AttemptOutcome.exn "network unavailable" }]

/-- A question whose resolution text names an IPv6 URL: `PLAIN_URL_RE`
(`https?://[^\s)>\]]+`) stops before the closing bracket, so the discovered
URL is the mangled `https://[::1`. -/
def malformedQuestion : QuestionDetails :=
  { id := Option.some 3
    title := "IPv6 service count"
    qtype := "numeric"
    scheduled_resolve_time := Option.none
    resolution_criteria := "See https://[::1]/stats for the count."
    fine_print := ""
    description := "" }

/-- No `can_handle` call of this adapter raises on this request. -/
def CanHandleTotal (a : AdapterModelE) (req : ScrapeRequest) : Prop :=
  ∃ b, a.canHandleE req = Except.ok b

lemma walkGoE_refines (cfg : ScraperConfig) (req : ScrapeRequest) :
    ∀ (chainE : List AdapterModelE) (fb : String),
      (∀ a ∈ chainE, CanHandleTotal a req) →
      walkGoE cfg req chainE fb =
        Except.ok (walkGo cfg req (chainE.map AdapterModelE.toTotal) fb) := by
  intro chainE
  induction chainE with
  | nil => intro fb _; rfl
  | cons a rest ih =>
    intro fb hok
    rcases hok a (List.mem_cons_self a rest) with ⟨b, hca⟩
    have hrest : ∀ x ∈ rest, CanHandleTotal x req :=
      fun x hx => hok x (List.mem_cons_of_mem a hx)
    have hct : (AdapterModelE.toTotal a).canHandle req = b := by
      simp [AdapterModelE.toTotal, hca]
    simp only [walkGoE, hca, List.map_cons]
    cases b with
    | false =>
      have hgo : walkGo cfg req (AdapterModelE.toTotal a ::
          rest.map AdapterModelE.toTotal) fb =
          walkGo cfg req (rest.map AdapterModelE.toTotal) fb := by
        simp only [walkGo, hct, Bool.false_eq_true, if_false]
      rw [if_neg (by simp), hgo]
      exact ih fb hrest
    | true =>
      rw [if_pos rfl]
      have hgo : walkGo cfg req (AdapterModelE.toTotal a ::
          rest.map AdapterModelE.toTotal) fb =
          (if (fetchWithRetries cfg a.toTotal req).result.ok &&
              !(fetchWithRetries cfg a.toTotal req).result.signals.isEmpty then
            (fetchWithRetries cfg a.toTotal req).result
          else walkGo cfg req (rest.map AdapterModelE.toTotal)
            (pyOrError (fetchWithRetries cfg a.toTotal req).result.error fb)) := by
        simp only [walkGo, hct, if_true]
      rw [hgo]
      cases hacc : (fetchWithRetries cfg a.toTotal req).result.ok &&
          !(fetchWithRetries cfg a.toTotal req).result.signals.isEmpty with
      | true => simp
      | false =>
        simp only [Bool.false_eq_true, if_false]
        exact ih _ hrest

lemma scrapeUrlE_refines (cfg : ScraperConfig) (chainE : List AdapterModelE)
    (now : ℚ) (cache : Cache) (req : ScrapeRequest)
    (h : ∀ a ∈ chainE, CanHandleTotal a req) :
    scrapeUrlE cfg chainE now cache req =
      Except.ok (scrapeUrl cfg (chainE.map AdapterModelE.toTotal) now cache req) := by
  have hw := walkGoE_refines cfg req chainE "No adapter accepted this URL." h
  simp only [scrapeUrlE, scrapeUrl, adapterWalkE, adapterWalk]
  cases hg : (get_cached now cache req.url).1 with
  | some r => rfl
  | none =>
    rw [hw]

lemma scrapeBatchE_refines (cfg : ScraperConfig) (chainE : List AdapterModelE)
    (now : ℚ) :
    ∀ (reqs : List ScrapeRequest) (cache : Cache),
      (∀ a ∈ chainE, ∀ req ∈ reqs, CanHandleTotal a req) →
      scrapeBatchE cfg chainE now cache reqs =
        Except.ok (scrapeBatch cfg (chainE.map AdapterModelE.toTotal) now cache reqs) := by
  intro reqs
  induction reqs with
  | nil => intro cache _; rfl
  | cons req rest ih =>
    intro cache hok
    simp only [scrapeBatchE,
      scrapeUrlE_refines cfg chainE now cache req
        (fun a ha => hok a ha req (List.mem_cons_self req rest)),
      ih _ (fun a ha r hr => hok a ha r (List.mem_cons_of_mem req hr))]
    rfl

/-- C5 (code bug): the claim — `scrape_question_sources` never raises, even
for malformed URLs — matches the spec's stated design (adapters never raise
outward, one failed result per URL, `can_handle` pure), but the code has a
reachable uncaught-exception path: for the question text
"See https://[::1]/stats for the count." the plain-URL regex discovers the
mangled URL "https://[::1", whose netloc `[::1` fails CPython's bracket
check, so `urlparse` inside `WikipediaAdapter.can_handle` raises
`ValueError("Invalid IPv6 URL")`; nothing in `scrape_url` catches it (only
`adapter.fetch` is wrapped) and the batch raises instead of returning one
failed result per URL. -/
theorem claim_C5_raises_on_malformed_url :
    urlparseE "https://[::1" = Except.error "Invalid IPv6 URL" ∧
    wikipediaCanHandleE (build_request malformedQuestion "https://[::1") =
      Except.error "Invalid IPv6 URL" ∧
    scrape_question_sourcesE defaultConfig defaultChainE 0 [] malformedQuestion
      ["https://[::1"] = Except.error "Invalid IPv6 URL" ∧
    urlparseE "https://en.wikipedia.org/wiki/Lean" =
      Except.ok (urlparse "https://en.wikipedia.org/wiki/Lean") := by
  exact ⟨rfl, rfl, rfl, rfl⟩

/-! ### C2: adapter exception behaviour -/

/-- A request whose URL the Wikipedia adapter handles. -/
def wikiReq : ScrapeRequest :=
  { question_id := 7
    question_title := "Wikipedia articles"
    question_type := "numeric"
    scheduled_resolve_time := Option.none
    url := "https://en.wikipedia.org/wiki/Lean"
    resolution_text := "wikipedia article count" }

/-- An HTTP 500 response from the siteinfo endpoint. -/
def resp500 : HttpResponse :=
  { status := 500, content_type := "text/html", jsonBody := Option.none, textBody := "" }

/-- A well-formed 200 JSON response whose statistics lack "articles". -/
def respNoStats : HttpResponse :=
  { status := 200
    content_type := "application/json"
    jsonBody := Option.some (Json.obj
      [("query", Json.obj [("statistics", Json.obj [("pages", Json.num (PyNum.intN 5))])])])
    textBody := "" }

/-- C2 counterexample: the claim says `fetch` never propagates an exception,
but the Wikipedia adapter's fetch has no try/except around `client.get`,
`raise_for_status` and `response.json()`: a non-2xx status — or the network
error already raised by the GET — propagates out of `fetch` as an exception
(it is the orchestrator's retry loop that catches it). -/
theorem claim_C2_counterexample :
    wikipediaFetch wikiReq (Except.ok resp500) "2026-01-01T00:00:00+00:00" =
      Except.error "HTTP status error 500" ∧
    wikipediaFetch wikiReq (Except.error "ConnectError: connection refused")
        "2026-01-01T00:00:00+00:00" =
      Except.error "ConnectError: connection refused" := by
  exact ⟨rfl, rfl⟩

/-- C2 (amended): content-shape failures are reported inside the returned
result's error field without raising — an unsupported host shape short-
circuits before any I/O, and missing statistics in a decoded response yield
an error-carrying result — but transport failures (network errors, bad HTTP
status, undecodable bodies) propagate out of `fetch` as exceptions; the
orchestrator's retry wrapper catches every such exception and encodes the
last message into the `ScrapeResult.error` it returns, so no exception
escapes the per-URL flow. -/
theorem claim_C2_amended :
    (∀ req net ts,
      strHasSub (toLowerStr (urlparse req.url).netloc) ".wikipedia.org" = false →
      wikipediaFetch req net ts = Except.ok
        { url := req.url, ok := false, signals := []
          error := Option.some "Unsupported Wikipedia host format." }) ∧
    (∀ ts, wikipediaFetch wikiReq (Except.ok respNoStats) ts = Except.ok
        { url := wikiReq.url, ok := false, signals := []
          error := Option.some "Could not find article statistics in MediaWiki response." }) ∧
    (∀ cfg a req, (∀ i, ∃ m, a.attempt req i = AttemptOutcome.exn m) →
      (fetchWithRetries cfg a req).result.ok = false ∧
      ∃ e, (fetchWithRetries cfg a req).result.error = Option.some e ∧ e ≠ "") ∧
    (∀ cfg (a : AdapterModel) req m, (∀ i, isSuccess (a.attempt req i) = false) →
      a.attempt req cfg.max_retries = AttemptOutcome.exn m →
      (fetchWithRetries cfg a req).result.error =
        Option.some (a.name ++ ": " ++ m)) := by
  refine ⟨?_, ?_, ?_, ?_⟩
  · intro req net ts h
    simp only [wikipediaFetch, h, Bool.not_false, if_true]
    rfl
  · intro ts
    rfl
  · intro cfg a req hexn
    have hf : ∀ i, isSuccess (a.attempt req i) = false := by
      intro i
      rcases hexn i with ⟨m, hm⟩
      rw [hm]
      rfl
    cases hres : (retryGo cfg.retry_backoff_s (a.attempt req) 0 "Unknown fetch error."
        (max 1 (cfg.max_retries + 1))).result with
    | some r =>
      rcases retryGo_result_some cfg.retry_backoff_s (a.attempt req) _ 0 _ r hres with
        ⟨⟨i, hi⟩, _⟩
      rcases hexn i with ⟨m, hm⟩
      rw [hm] at hi
      cases hi
    | none =>
      have hfr : (fetchWithRetries cfg a req).result =
          { url := req.url, ok := false, signals := []
            error := Option.some (a.name ++ ": " ++
              (retryGo cfg.retry_backoff_s (a.attempt req) 0 "Unknown fetch error."
                (max 1 (cfg.max_retries + 1))).lastError) } := by
        simp only [fetchWithRetries, hres]
      rw [hfr]
      exact ⟨rfl, _, rfl, string_append_colon_ne _ _⟩
  · intro cfg a req m hf hm
    rcases retryGo_all_fail cfg.retry_backoff_s (a.attempt req) hf
      cfg.max_retries 0 "Unknown fetch error." with ⟨h1, _, _, h4⟩
    have hle := h4 m (by rw [Nat.zero_add, hm]; rfl)
    simp only [fetchWithRetries, max_one_succ, h1, hle]

/-- C2 witness: the amended host-shape rule applied at a non-wikipedia URL —
the result is returned, not raised, even though the network would error. -/
theorem claim_C2_witness :
    wikipediaFetch sampleRequest (Except.error "ConnectError") "ts" = Except.ok
      { url := sampleRequest.url, ok := false, signals := []
        error := Option.some "Unsupported Wikipedia host format." } :=
  claim_C2_amended.1 sampleRequest (Except.error "ConnectError") "ts" (by decide)

/-! ### C10: concurrency-gate lemmas -/

lemma countP_set_add {α : Type} (p : α → Bool) :
    ∀ (l : List α) (i : Nat) (x a : α), l.get? i = Option.some a →
      (l.set i x).countP p + (if p a then 1 else 0) =
        l.countP p + (if p x then 1 else 0) := by
  intro l
  induction l with
  | nil => intro i x a h; cases h
  | cons b t ih =>
    intro i x a h
    cases i with
    | zero =>
      have hb : b = a := Option.some.inj h
      subst hb
      simp only [List.set_cons_zero, List.countP_cons]
      omega
    | succ j =>
      have ht := ih j x a h
      simp only [List.set_cons_succ, List.countP_cons]
      omega

lemma gate_invariant (kinds : List TaskKind) (k n : Nat) :
    ∀ s, GateReachable kinds k n s → countRunning s.phases + s.avail = k := by
  intro s hreach
  induction hreach with
  | refl => simp [initGate, countRunning, List.countP_eq_zero.mpr]
  | tail hprev hstep ih =>
    rename_i b c
    cases hstep with
    | start i hk hp hav =>
      have hcount := countP_set_add (fun p => p == TaskPhase.running)
        b.phases i TaskPhase.running TaskPhase.pending hp
      simp only [countRunning] at ih ⊢
      simp only [show ((TaskPhase.pending == TaskPhase.running) = false) from rfl,
        show ((TaskPhase.running == TaskPhase.running) = true) from rfl,
        Bool.false_eq_true, if_false, if_true] at hcount
      omega
    | finish i hp =>
      have hcount := countP_set_add (fun p => p == TaskPhase.running)
        b.phases i TaskPhase.done TaskPhase.running hp
      simp only [countRunning] at ih ⊢
      simp only [show ((TaskPhase.running == TaskPhase.running) = true) from rfl,
        show ((TaskPhase.done == TaskPhase.running) = false) from rfl,
        Bool.false_eq_true, if_false, if_true] at hcount
      omega
    | hitDone i hk hp =>
      have hcount := countP_set_add (fun p => p == TaskPhase.running)
        b.phases i TaskPhase.done TaskPhase.pending hp
      simp only [countRunning] at ih ⊢
      simp only [show ((TaskPhase.pending == TaskPhase.running) = false) from rfl,
        show ((TaskPhase.done == TaskPhase.running) = false) from rfl,
        Bool.false_eq_true, if_false] at hcount
      omega

/-- C10: per orchestrator instance the semaphore admits at most
`max_parallel_fetches` concurrent cache-miss fetches — in every state
reachable by interleaving the per-URL tasks, the number of running fetches
is at most `k`; when no slot is free no step can increase the running count
(excess requests stay suspended); a cache-hit task completes without
touching the gate, even with zero slots free; and in particular with
`max_parallel_fetches = 2` and three cache-miss URLs at most 2 fetches ever
run concurrently. -/
theorem claim_C10_gate :
    (∀ kinds k n s, GateReachable kinds k n s → countRunning s.phases ≤ k) ∧
    (∀ kinds (s sp : GateState), s.avail = 0 → GateStep kinds s sp →
      countRunning sp.phases ≤ countRunning s.phases) ∧
    (∀ kinds (s : GateState) i, kinds.get? i = Option.some TaskKind.hit →
      s.phases.get? i = Option.some TaskPhase.pending →
      GateStep kinds s { avail := s.avail, phases := s.phases.set i TaskPhase.done }) ∧
    (∀ s, GateReachable [TaskKind.miss, TaskKind.miss, TaskKind.miss] 2 3 s →
      countRunning s.phases ≤ 2) := by
  have hbound : ∀ kinds k n s, GateReachable kinds k n s →
      countRunning s.phases ≤ k := by
    intro kinds k n s h
    have := gate_invariant kinds k n s h
    omega
  refine ⟨hbound, ?_, ?_, ?_⟩
  · intro kinds s sp hav hstep
    cases hstep with
    | start i hk hp hav2 => omega
    | finish i hp =>
      have hcount := countP_set_add (fun p => p == TaskPhase.running)
        s.phases i TaskPhase.done TaskPhase.running hp
      simp only [countRunning]
      simp only [show ((TaskPhase.running == TaskPhase.running) = true) from rfl,
        show ((TaskPhase.done == TaskPhase.running) = false) from rfl,
        Bool.false_eq_true, if_false, if_true] at hcount
      omega
    | hitDone i hk hp =>
      have hcount := countP_set_add (fun p => p == TaskPhase.running)
        s.phases i TaskPhase.done TaskPhase.pending hp
      simp only [countRunning]
      simp only [show ((TaskPhase.pending == TaskPhase.running) = false) from rfl,
        show ((TaskPhase.done == TaskPhase.running) = false) from rfl,
        Bool.false_eq_true, if_false] at hcount
      omega
  · intro kinds s i hk hp
    exact GateStep.hitDone i hk hp
  · intro s h
    exact hbound [TaskKind.miss, TaskKind.miss, TaskKind.miss] 2 3 s h

/-- C10 witness: the bound instantiated at the initial state of a
two-slot gate with three cache-miss tasks, and after one admission step. -/
theorem claim_C10_witness :
    countRunning (initGate 2 3).phases ≤ 2 ∧
    countRunning ((initGate 2 3).phases.set 0 TaskPhase.running) ≤ 2 := by
  constructor
  · exact claim_C10_gate.2.2.2 (initGate 2 3) Relation.ReflTransGen.refl
  · have hstep : GateStep [TaskKind.miss, TaskKind.miss, TaskKind.miss] (initGate 2 3)
        { avail := (initGate 2 3).avail - 1
          phases := (initGate 2 3).phases.set 0 TaskPhase.running } :=
      GateStep.start 0 rfl rfl (by simp [initGate])
    have hr : GateReachable [TaskKind.miss, TaskKind.miss, TaskKind.miss] 2 3
        { avail := (initGate 2 3).avail - 1
          phases := (initGate 2 3).phases.set 0 TaskPhase.running } :=
      Relation.ReflTransGen.single hstep
    exact claim_C10_gate.2.2.2 _ hr

end Scraper
